import Mathlib

/-!
# Wrapper lifetime in `jswrapper/chakracore/Object.cpp`

A shallow embedding of `se::Object` (the ChakraCore flavour of the script-engine
wrapper) together with the process-wide state it manipulates, followed by the
properties proved about it.

Conventions of the embedding:

* addresses (`void*`, `Object*`) and host handles (`JsValueRef`) are natural
  numbers; `0` is `nullptr` / `JS_INVALID_REFERENCE`;
* `assert(c)` is a fatal stop: operations that contain an assertion return
  `Option`, and `none` is the failed assertion;
* every call into the host runtime made on behalf of a wrapper is appended to
  `Runtime.calls`, so "no host call" is "the log did not grow";
* `_rootCount` and the `_refCount` of the `RefCounter` base are declared in headers
  that are not part of the sources at hand; they are embedded as 32-bit unsigned
  counters, so an increment at the maximum and a decrement at 0 wrap around.
-/

namespace se

/-- Native address; `0` is `nullptr`. -/
abbrev Ptr := Nat

/-- Host value handle; `0` is `JS_INVALID_REFERENCE`. -/
abbrev JsValueRef := Nat

/-- Host status code; `0` is `JsNoError`. -/
abbrev JsErrorCode := Nat

/-- The status code of a host call that succeeded. -/
def JsNoError : JsErrorCode := 0

/-- The two phase flags of `ScriptEngine` consulted by `unroot` and `_cleanup`
(`se->isInCleanup()`, `se->isGarbageCollecting()`). -/
structure ScriptEngine where
  isInCleanup : Bool
  isGarbageCollecting : Bool
  deriving DecidableEq, Repr

/-- Engine outside teardown and outside a collection pass. -/
def ScriptEngine.normal : ScriptEngine := ⟨false, false⟩

/-- Host-runtime calls issued by the lifetime operations of a wrapper. -/
inductive HostCall where
  | JsAddRef (obj : JsValueRef)
  | JsRelease (obj : JsValueRef)
  | getPrivate (obj : JsValueRef)
  | setPrivate (obj : JsValueRef) (data : Ptr) (finalizeCb : Nat)
  | clearPrivate (obj : JsValueRef)
  | JsCallFunction (fn : JsValueRef) (args : List JsValueRef)
  | clearException
  deriving DecidableEq, Repr

/-- The fields of `se::Object`; `_refCount` is the counter of its `RefCounter` base. -/
structure Object where
  _refCount : Nat
  _cls : Nat
  _obj : JsValueRef
  _rootCount : Nat
  _privateData : Ptr
  _isCleanup : Bool
  _finalizeCb : Nat
  deriving DecidableEq, Repr

/-- The constructor `Object::Object()`. The counter of the `RefCounter` base (not in the
sources) is taken to start at one reference. -/
def Object.new : Object :=
  { _refCount := 1, _cls := 0, _obj := 0, _rootCount := 0, _privateData := 0,
    _isCleanup := false, _finalizeCb := 0 }

/-- The method `Object::init`. -/
def Object.init (o : Object) (obj : JsValueRef) : Object × Bool :=
  ({ o with _obj := obj }, true)

/-- The method `Object::isRooted`. -/
def Object.isRooted (o : Object) : Bool := decide (o._rootCount > 0)

/-- Modelled from the spec: `NativePtrToObjectMap` and
`NonRefNativePtrCreatedByCtorMap` (`MappingUtils.hpp`, not in the sources) are
"a mapping from native pointer to Wrapper Entity, keys unique"; an entry list
with the `find` / `emplace` / `erase` / `clear` of a hash map. -/
abbrev PtrMap := List (Ptr × Nat)

/-- Lookup `NativePtrToObjectMap::find(key)`; `none` is `end()`. -/
def PtrMap.find (m : PtrMap) (key : Ptr) : Option Nat :=
  match m with
  | [] => none
  | (k, v) :: rest => if k = key then some v else PtrMap.find rest key

/-- Removal `NativePtrToObjectMap::erase(key)`. -/
def PtrMap.erase (m : PtrMap) (key : Ptr) : PtrMap :=
  match m with
  | [] => []
  | (k, v) :: rest => if k = key then PtrMap.erase rest key else (k, v) :: PtrMap.erase rest key

/-- Insertion `NativePtrToObjectMap::emplace(key, value)`: keeps an existing entry. -/
def PtrMap.emplace (m : PtrMap) (key : Ptr) (value : Nat) : PtrMap :=
  match PtrMap.find m key with
  | some _ => m
  | none => m ++ [(key, value)]

/-- Modelled from the spec: the process-wide state around a wrapper. The two
registries (`MappingUtils.hpp`), the host value's internal slot read and written
by `internal::getPrivate` / `setPrivate` / `clearPrivate` (`Utils.hpp`), the
host's protection count moved by `JsAddRef` / `JsRelease`, the pending-exception
flag, and the log of host calls. None of these is defined in the sources. -/
structure Runtime where
  nativePtrToObjectMap : PtrMap
  nonRefNativePtrCreatedByCtorMap : PtrMap
  slot : JsValueRef → Ptr
  refs : JsValueRef → Nat
  pendingException : Bool
  calls : List HostCall

/-- Runtime with empty registries, empty slots, nothing protected, nothing logged. -/
def Runtime.empty : Runtime :=
  { nativePtrToObjectMap := [], nonRefNativePtrCreatedByCtorMap := [],
    slot := fun _ => 0, refs := fun _ => 0, pendingException := false, calls := [] }

/-- Modelled from the spec: the host's `JsAddRef`, the "protect from collection"
primitive: one more protection on `obj`. -/
def Runtime.JsAddRef (rt : Runtime) (obj : JsValueRef) : Runtime :=
  { rt with refs := fun x => if x = obj then rt.refs obj + 1 else rt.refs x,
            calls := rt.calls ++ [HostCall.JsAddRef obj] }

/-- Modelled from the spec: the host's `JsRelease`, the "allow collection" primitive:
one protection less on `obj`. -/
def Runtime.JsRelease (rt : Runtime) (obj : JsValueRef) : Runtime :=
  { rt with refs := fun x => if x = obj then rt.refs obj - 1 else rt.refs x,
            calls := rt.calls ++ [HostCall.JsRelease obj] }

/-- Modelled from the spec: `internal::getPrivate` (`Utils.hpp`, not in the sources)
reads the native pointer kept in the internal slot of `obj`. -/
def Runtime.getPrivate (rt : Runtime) (obj : JsValueRef) : Ptr × Runtime :=
  (rt.slot obj, { rt with calls := rt.calls ++ [HostCall.getPrivate obj] })

/-- Modelled from the spec: `internal::setPrivate` (`Utils.hpp`, not in the sources)
"binds the pointer into the host value's internal slot together with the finalize
callback". -/
def Runtime.setPrivate (rt : Runtime) (obj : JsValueRef) (data : Ptr) (cb : Nat) : Runtime :=
  { rt with slot := fun x => if x = obj then data else rt.slot x,
            calls := rt.calls ++ [HostCall.setPrivate obj data cb] }

/-- Modelled from the spec: `internal::clearPrivate` (`Utils.hpp`, not in the sources)
"clears the host value's internal slot". -/
def Runtime.clearPrivate (rt : Runtime) (obj : JsValueRef) : Runtime :=
  { rt with slot := fun x => if x = obj then 0 else rt.slot x,
            calls := rt.calls ++ [HostCall.clearPrivate obj] }

/-- Modelled from the spec: the declarations of `_rootCount` (`Object.hpp`) and of
`_refCount` (`RefCounter.hpp`) are not in the sources. The spec has counts that are never
negative; they are taken as 32-bit unsigned integers, so each holds a value below
`counterModulus` and arithmetic on it wraps around. -/
def counterModulus : Nat := 4294967296

/-- The method `Object::root`; `++_rootCount` wraps at the counter's maximum. -/
def Object.root (o : Object) (rt : Runtime) : Object × Runtime :=
  let rt1 := if o._rootCount = 0 then rt.JsAddRef o._obj else rt
  ({ o with _rootCount := (o._rootCount + 1) % counterModulus }, rt1)

/-- The method `Object::unroot`. -/
def Object.unroot (o : Object) (rt : Runtime) (se : ScriptEngine) : Object × Runtime :=
  if o._rootCount > 0 then
    let o1 := { o with _rootCount := o._rootCount - 1 }
    if o1._rootCount = 0 then
      if !se.isInCleanup && !se.isGarbageCollecting then
        (o1, rt.JsRelease o1._obj)
      else (o1, rt)
    else (o1, rt)
  else (o, rt)

/-- The method `Object::_cleanup(void* nativeObject)`. -/
def Object._cleanup (o : Object) (rt : Runtime) (se : ScriptEngine) (nativeObject : Ptr) :
    Object × Runtime :=
  if o._isCleanup then (o, rt)
  else
    let rt1 :=
      if o._privateData ≠ 0 then
        if o._obj ≠ 0 then
          let r := if nativeObject = 0 then rt.getPrivate o._obj else (nativeObject, rt)
          if r.1 ≠ 0 then
            match r.2.nativePtrToObjectMap.find r.1 with
            | some _ => { r.2 with nativePtrToObjectMap := r.2.nativePtrToObjectMap.erase r.1 }
            | none => r.2
          else r.2
        else rt
      else rt
    let p :=
      if o._rootCount > 0 then
        let rt2 :=
          if !se.isInCleanup && !se.isGarbageCollecting then rt1.JsRelease o._obj else rt1
        ({ o with _rootCount := 0 }, rt2)
      else (o, rt1)
    ({ p.1 with _isCleanup := true }, p.2)

/-- The method `Object::getPrivateData`. -/
def Object.getPrivateData (o : Object) (rt : Runtime) : Ptr × Object × Runtime :=
  if o._privateData = 0 then
    let r := rt.getPrivate o._obj
    (r.1, { o with _privateData := r.1 }, r.2)
  else (o._privateData, o, rt)

/-- The method `Object::setPrivateData`, called on the wrapper at address `this`;
`none` is a failed assertion. -/
def Object.setPrivateData (o : Object) (this : Nat) (rt : Runtime) (data : Ptr) :
    Option (Object × Runtime) :=
  if o._privateData ≠ 0 then none
  else if (rt.nativePtrToObjectMap.find data).isSome then none
  else
    let rt1 := rt.setPrivate o._obj data o._finalizeCb
    let rt2 := { rt1 with nativePtrToObjectMap := rt1.nativePtrToObjectMap.emplace data this }
    some ({ o with _privateData := data }, rt2)

/-- The method `Object::clearPrivateData`. -/
def Object.clearPrivateData (o : Object) (rt : Runtime) : Object × Runtime :=
  if o._privateData ≠ 0 then
    let r := o.getPrivateData rt
    let rt1 := { r.2.2 with nativePtrToObjectMap := r.2.2.nativePtrToObjectMap.erase r.1 }
    let rt2 := rt1.clearPrivate r.2.1._obj
    ({ r.2.1 with _privateData := 0 }, rt2)
  else (o, rt)

/-! ## Several wrappers: the heap of `se::Object`s and the process-wide state -/

/-- Wrappers by address, plus the process-wide state. -/
structure World where
  heap : Nat → Object
  rt : Runtime

/-- Store `o` at address `this`. -/
def World.set (w : World) (this : Nat) (o : Object) (rt : Runtime) : World :=
  { heap := fun x => if x = this then o else w.heap x, rt := rt }

/-- Call `this->root()`. -/
def World.root (w : World) (this : Nat) : World :=
  let r := (w.heap this).root w.rt
  w.set this r.1 r.2

/-- Call `this->unroot()`. -/
def World.unroot (w : World) (this : Nat) (se : ScriptEngine) : World :=
  let r := (w.heap this).unroot w.rt se
  w.set this r.1 r.2

/-- Call `this->_cleanup(nativeObject)`. -/
def World._cleanup (w : World) (this : Nat) (se : ScriptEngine) (nativeObject : Ptr) : World :=
  let r := (w.heap this)._cleanup w.rt se nativeObject
  w.set this r.1 r.2

/-- Call `this->setPrivateData(data)`; `none` is a failed assertion. -/
def World.setPrivateData (w : World) (this : Nat) (data : Ptr) : Option World :=
  match (w.heap this).setPrivateData this w.rt data with
  | some r => some (w.set this r.1 r.2)
  | none => none

/-- Call `this->clearPrivateData()`. -/
def World.clearPrivateData (w : World) (this : Nat) : World :=
  let r := (w.heap this).clearPrivateData w.rt
  w.set this r.1 r.2

/-- The registry-changing operations of a wrapper, with their arguments. -/
inductive RegistryOp where
  | setPrivateData (this : Nat) (data : Ptr)
  | clearPrivateData (this : Nat)
  | _cleanup (this : Nat) (se : ScriptEngine) (nativeObject : Ptr)
  deriving DecidableEq, Repr

/-- One operation; `none` is a failed assertion. -/
def World.apply (w : World) : RegistryOp → Option World
  | RegistryOp.setPrivateData this data => w.setPrivateData this data
  | RegistryOp.clearPrivateData this => some (w.clearPrivateData this)
  | RegistryOp._cleanup this se nativeObject => some (w._cleanup this se nativeObject)

/-- A sequence of operations, stopping at the first failed assertion. -/
def World.run (w : World) : List RegistryOp → Option World
  | [] => some w
  | op :: rest =>
    match w.apply op with
    | some w1 => World.run w1 rest
    | none => none

/-- Every address holds a wrapper as `_createJSObject` leaves it (constructed, then
`init(objOf address)`); registries and slots are empty. -/
def World.fresh (objOf : Nat → JsValueRef) : World :=
  { heap := fun x => (Object.new.init (objOf x)).1, rt := Runtime.empty }

/-! ## One wrapper under `root`, `unroot` and `_cleanup` -/

/-- The rooting operations of a wrapper. -/
inductive RootOp where
  | root
  | unroot
  | _cleanup (nativeObject : Ptr)
  deriving DecidableEq, Repr

/-- One rooting operation under the engine phase `step.2`. -/
def Object.step (s : Object × Runtime) (step : RootOp × ScriptEngine) : Object × Runtime :=
  match step.1 with
  | RootOp.root => s.1.root s.2
  | RootOp.unroot => s.1.unroot s.2 step.2
  | RootOp._cleanup nativeObject => s.1._cleanup s.2 step.2 nativeObject

/-- A sequence of rooting operations, each under its own engine phase. -/
def Object.steps (s : Object × Runtime) (l : List (RootOp × ScriptEngine)) : Object × Runtime :=
  l.foldl Object.step s

/-! ## The teardown sweep -/

/-- The destructor `Object::~Object`, run on the wrapper at `this`. -/
def World.destructor (w : World) (this : Nat) (se : ScriptEngine) : World :=
  w._cleanup this se 0

/-- The decrement `--n` of a 32-bit unsigned counter: 0 wraps to the maximum. -/
def counterPred (n : Nat) : Nat := (n + (counterModulus - 1)) % counterModulus

/-- Modelled from the spec: `RefCounter::decRef` (`RefCounter.hpp`, not in the
sources): the wrapper is "destroyed when native reference count reaches zero
— at which point cleanup runs". The count is decremented as a 32-bit unsigned counter;
when it reaches zero the destructor runs and the wrapper is deleted, which the second
component reports. -/
def World.decRef (w : World) (this : Nat) (se : ScriptEngine) : World × Bool :=
  let o := w.heap this
  let o1 := { o with _refCount := counterPred o._refCount }
  let w1 := w.set this o1 w.rt
  if o1._refCount = 0 then (w1.destructor this se, true) else (w1, false)

/-- The state of the teardown sweep: the world, the addresses whose wrapper has been
deleted (their memory is gone, whatever `world.heap` still shows there), and the registry
as it stood after each turn of the loop so far. -/
structure SweepState where
  world : World
  deleted : List Nat
  seen : List PtrMap

/-- One turn of the loop in the hook of `Object::cleanup`, for the entry `e`:
`obj->_isCleanup = true; obj->decRef();`. `none` is a fault: the entry's wrapper had
been deleted already, so the turn would write to freed memory. -/
def sweepStep (se : ScriptEngine) (acc : Option SweepState) (e : Ptr × Nat) :
    Option SweepState :=
  match acc with
  | none => none
  | some s =>
    let obj := e.2
    if obj ∈ s.deleted then none
    else
      let w1 := s.world.set obj { s.world.heap obj with _isCleanup := true } s.world.rt
      let r := w1.decRef obj se
      some { world := r.1
             deleted := if r.2 then s.deleted ++ [obj] else s.deleted
             seen := s.seen ++ [r.1.rt.nativePtrToObjectMap] }

/-- The hook that `Object::cleanup` hands to `addAfterCleanupHook`: the loop over the
registry's entries, then the two `clear()` calls. `deleted` lists the addresses whose
wrapper is already gone when the hook starts; `none` is a fault inside the loop. -/
def afterCleanupHook (w : World) (deleted : List Nat) (se : ScriptEngine) :
    Option SweepState :=
  match w.rt.nativePtrToObjectMap.foldl (sweepStep se)
      (some { world := w, deleted := deleted, seen := [] }) with
  | none => none
  | some s =>
    some { s with world := { s.world with rt := { s.world.rt with
      nativePtrToObjectMap := [], nonRefNativePtrCreatedByCtorMap := [] } } }

/-! ## The host runtime as seen by the access layer -/

/-- Host type tags (`JsValueType`). -/
inductive JsValueType where
  | JsUndefined | JsNull | JsNumber | JsString | JsBoolean | JsObject | JsFunction
  | JsError | JsArray | JsSymbol | JsArrayBuffer | JsTypedArray | JsDataView
  deriving DecidableEq, Repr

/-- Native tagged value (`se::Value`); an object value holds the wrapper's address. -/
inductive Value where
  | Undefined
  | Null
  | Number (v : Int)
  | Boolean (b : Bool)
  | String (s : String)
  | Object (o : Nat)
  deriving DecidableEq, Repr

/-- The method `Value::isObject`. -/
def Value.isObject : Value → Bool
  | Value.Object _ => true
  | _ => false

/-- Modelled from the spec: `Value::toObject` (`Value.cpp`, not in the sources), which
asserts that the value is of object kind; `none` is the failed assertion. -/
def Value.toObject : Value → Option Nat
  | Value.Object o => some o
  | _ => none

/-- Answers of the host runtime and of the marshalling helpers, as functions of their
arguments. A pair is (status, value written to the out-parameter).
`JsHasProperty` gives what is left in `exist` (its status is not read by the caller);
`jsStringToStdString v old` is the content of the string after the conversion of `v`
into a string that held `old`; `globalObject` is the address of the wrapper returned
by `ScriptEngine::getGlobalObject`. -/
structure Host where
  JsGetValueType : JsValueRef → JsErrorCode × JsValueType
  JsGetUndefinedValue : JsErrorCode × JsValueRef
  JsCreatePropertyId : String → JsErrorCode × Nat
  JsHasProperty : JsValueRef → Nat → Bool
  JsGetProperty : JsValueRef → Nat → JsErrorCode × JsValueRef
  JsCallFunction : JsValueRef → List JsValueRef → JsErrorCode × JsValueRef
  JsGetOwnPropertyNames : JsValueRef → JsErrorCode × JsValueRef
  JsNumberToInt : JsValueRef → JsErrorCode × Int
  JsIntToNumber : Int → JsErrorCode × JsValueRef
  JsGetIndexedProperty : JsValueRef → JsValueRef → JsErrorCode × JsValueRef
  seToJsValue : Value → JsValueRef
  jsToSeValue : JsValueRef → Value
  jsStringToStdString : JsValueRef → String → String
  globalObject : Nat

/-- Modelled from the spec: the `_CHECK` macro (`Utils.hpp`, not in the sources) stops on a
status other than `JsNoError`, like a failed assertion; `none` is that stop. -/
def _CHECK {α : Type} (r : JsErrorCode × α) : Option α :=
  if r.1 = JsNoError then some r.2 else none

/-- The method `Object::isFunction`. -/
def Object.isFunction (o : Object) (host : Host) : Option Bool :=
  match _CHECK (host.JsGetValueType o._obj) with
  | none => none
  | some type => some (decide (o._obj ≠ 0 ∧ type = JsValueType.JsFunction))

/-- The method `Object::getProperty(name, data)`; the second component is `*data`
after the call. -/
def Object.getProperty (o : Object) (host : Host) (name : String) (data : Value) :
    Option (Bool × Value) :=
  match _CHECK (host.JsCreatePropertyId name) with
  | none => none
  | some propertyId =>
    let exist := host.JsHasProperty o._obj propertyId
    if exist then
      match _CHECK (host.JsGetProperty o._obj propertyId) with
      | none => none
      | some jsValue => some (exist, host.jsToSeValue jsValue)
    else some (exist, data)

/-- The first loop of `Object::call`: roots every object argument that is not
rooted and remembers it in `toUnrootedObjects`. -/
def World.rootArgs (w : World) : List Value → List Nat → World × List Nat
  | [], toUnrootedObjects => (w, toUnrootedObjects)
  | Value.Object o :: rest, toUnrootedObjects =>
    if !(w.heap o).isRooted then
      World.rootArgs (w.root o) rest (toUnrootedObjects ++ [o])
    else World.rootArgs w rest toUnrootedObjects
  | _ :: rest, toUnrootedObjects => World.rootArgs w rest toUnrootedObjects

/-- The second loop of `Object::call`: unroots what the first loop remembered. -/
def World.unrootAll (w : World) (se : ScriptEngine) : List Nat → World
  | [] => w
  | obj :: rest => World.unrootAll (w.unroot obj se) se rest

/-- Modelled from the spec: the host's `JsCallFunction` as it acts on the runtime. The
call is logged and a status other than `JsNoError` ("an exception was thrown") leaves an
exception pending. -/
def Runtime.JsCallFunction (rt : Runtime) (fn : JsValueRef) (args : List JsValueRef)
    (errCode : JsErrorCode) : Runtime :=
  { rt with pendingException := rt.pendingException || decide (errCode ≠ JsNoError),
            calls := rt.calls ++ [HostCall.JsCallFunction fn args] }

/-- Modelled from the spec: `ScriptEngine::clearException` (`ScriptEngine.cpp`, not in
the sources): "clear the pending host exception". -/
def Runtime.clearException (rt : Runtime) : Runtime :=
  { rt with pendingException := false, calls := rt.calls ++ [HostCall.clearException] }

/-- The method `Object::call(args, thisObject, rval)` on the wrapper at `this`.
`thisObject = 0` and `rval = none` are the null pointers; the result is the world, the
returned flag and `*rval`; `none` is a failed assertion or `_CHECK`. -/
def World.call (w : World) (host : Host) (se : ScriptEngine) (this : Nat)
    (args : List Value) (thisObject : Nat) (rval : Option Value) :
    Option (World × Bool × Option Value) :=
  match (w.heap this).isFunction host with
  | none => none
  | some false => none
  | some true =>
    let ctx : Option JsValueRef :=
      if thisObject ≠ 0 then some (w.heap thisObject)._obj
      else _CHECK host.JsGetUndefinedValue
    match ctx with
    | none => none
    | some contextObject =>
      let r := w.rootArgs args []
      let jsArgs := contextObject :: args.map host.seToJsValue
      let res := host.JsCallFunction (w.heap this)._obj jsArgs
      let w1 : World :=
        { r.1 with rt := r.1.rt.JsCallFunction (w.heap this)._obj jsArgs res.1 }
      let w2 := w1.unrootAll se r.2
      if res.1 = JsNoError then
        match rval with
        | some v =>
          let type := (host.JsGetValueType res.2).2
          if type ≠ JsValueType.JsUndefined then some (w2, true, some (host.jsToSeValue res.2))
          else some (w2, true, some v)
        | none => some (w2, true, none)
      else some ({ w2 with rt := w2.rt.clearException }, false, rval)

/-- The function `Object::_createJSObject(cls, obj)`; the result is the new wrapper
(`none` would be `nullptr`). -/
def Object._createJSObject (cls : Nat) (obj : JsValueRef) : Option Object :=
  let ret := Object.new
  let r := ret.init obj
  if !r.2 then none else some { r.1 with _cls := cls }

/-- The function `Object::createJSONObject(jsonStr)`. The outer `none` is a failed
assertion; the inner option is the returned pointer, `none` being `nullptr`. -/
def World.createJSONObject (w : World) (host : Host) (se : ScriptEngine) (jsonStr : String) :
    Option (Option Object × World) :=
  let global := host.globalObject
  match (w.heap global).getProperty host "JSON" Value.Undefined with
  | none => none
  | some (false, _) => none
  | some (true, jsonVal) =>
    match jsonVal.toObject with
    | none => none
    | some json =>
      match (w.heap json).getProperty host "parse" Value.Undefined with
      | none => none
      | some (false, _) => none
      | some (true, parseVal) =>
        match parseVal.toObject with
        | none => none
        | some parse =>
          let args := [Value.String jsonStr]
          match w.call host se parse args json (some Value.Undefined) with
          | none => none
          | some (w1, true, ret) =>
            match ret.bind Value.toObject with
            | none => none
            | some retObj => some (Object._createJSObject 0 retObj, w1)
          | some (w1, false, _) => some (none, w1)

/-- The static function `isArrayOfObject`. -/
def isArrayOfObject (host : Host) (obj : JsValueRef) : Bool :=
  let r := host.JsGetValueType obj
  if r.1 = JsNoError then decide (r.2 = JsValueType.JsArray) else false

/-- The conversion `(uint32_t)intVal`. -/
def toUInt32 (v : Int) : Nat := (v % 4294967296).toNat

/-- The conversion of a `uint32_t` to the `int` parameter of `JsIntToNumber`. -/
def toInt32 (n : Nat) : Int := if n < 2147483648 then (n : Int) else (n : Int) - 4294967296

/-- The static function `getArrayLengthOfObject(arrObj, length)`: the returned flag and
`*length` after the call; `none` is the failed assertion. -/
def getArrayLengthOfObject (host : Host) (arrObj : JsValueRef) (length : Nat) :
    Option (Bool × Nat) :=
  if !isArrayOfObject host arrObj then none
  else
    let p := host.JsCreatePropertyId "length"
    if p.1 ≠ JsNoError then some (false, length)
    else
      let l := host.JsGetProperty arrObj p.2
      if l.1 ≠ JsNoError then some (false, length)
      else
        let i := host.JsNumberToInt l.2
        if i.1 ≠ JsNoError then some (false, length)
        else some (true, toUInt32 i.2)

/-- The loop of `Object::getAllKeys` from `index` on, with `remaining = len - index`
turns left; `key` is the local string, `allKeys` the caller's sequence. -/
def getAllKeysLoop (host : Host) (keys : JsValueRef) (index : Nat) (key : String)
    (allKeys : List String) : Nat → Bool × List String
  | 0 => (true, allKeys)
  | remaining + 1 =>
    let iv := host.JsIntToNumber (toInt32 index)
    if iv.1 ≠ JsNoError then (false, allKeys)
    else
      let nv := host.JsGetIndexedProperty keys iv.2
      let nameValue := if nv.1 = JsNoError then nv.2 else 0
      let key1 := host.jsStringToStdString nameValue key
      getAllKeysLoop host keys (index + 1) key1 (allKeys ++ [key1]) remaining

/-- The method `Object::getAllKeys(allKeys)`: the returned flag and `*allKeys` after the
call; `none` is the failed assertion inside `getArrayLengthOfObject`. -/
def Object.getAllKeys (o : Object) (host : Host) (allKeys : List String) :
    Option (Bool × List String) :=
  let k := host.JsGetOwnPropertyNames o._obj
  if k.1 ≠ JsNoError then some (false, allKeys)
  else
    match getArrayLengthOfObject host k.2 0 with
    | none => none
    | some (false, _) => some (false, allKeys)
    | some (true, len) => some (getAllKeysLoop host k.2 0 "" allKeys len)

/-- What the first loop of `call` maintains: `acc` is the list of wrappers rooted so
far, each once, each unrooted in the starting world `w0`, and the current heap is the
starting heap with root count 1 on exactly these. -/
def RootedBy (w0 w : World) (acc : List Nat) : Prop :=
  acc.Nodup ∧ (∀ x ∈ acc, (w0.heap x)._rootCount = 0) ∧
  (∀ x, w.heap x = if x ∈ acc then { w0.heap x with _rootCount := 1 } else w0.heap x)

/-- A small host used to run the definitions on concrete inputs. The wrapper at address
`k` of `World.fresh (fun x => x * 10)` has handle `10 * k`: the global object is wrapper 1,
its `JSON` property is handle 20, `JSON.parse` is the function 30, whose call throws when
`throws` is set and returns handle 40 otherwise. Handle 50 is an array of two names,
`"a"` and `"b"`; the number for index `failAt` cannot be made. The global object has the
property `JSON` when `hasJSON` is set. -/
def Host.sample (hasJSON throws : Bool) (failAt : Int) : Host :=
  { JsGetValueType := fun v =>
      (JsNoError, if v = 30 then JsValueType.JsFunction
                  else if v = 50 then JsValueType.JsArray else JsValueType.JsObject)
    JsGetUndefinedValue := (JsNoError, 99)
    JsCreatePropertyId := fun name => (JsNoError, name.length)
    JsHasProperty := fun obj pid => (obj = 10 && pid = 4 && hasJSON) || (obj = 20 && pid = 5)
    JsGetProperty := fun obj pid =>
      if obj = 10 ∧ pid = 4 then (JsNoError, 20)
      else if obj = 20 ∧ pid = 5 then (JsNoError, 30)
      else if obj = 50 ∧ pid = 6 then (JsNoError, 60)
      else (1, 0)
    JsCallFunction := fun _ _ => if throws then (1, 0) else (JsNoError, 40)
    JsGetOwnPropertyNames := fun _ => (JsNoError, 50)
    JsNumberToInt := fun v => if v = 60 then (JsNoError, 2) else (1, 0)
    JsIntToNumber := fun i => if i = failAt then (1, 0) else (JsNoError, 100 + i.toNat)
    JsGetIndexedProperty := fun arr i => if arr = 50 then (JsNoError, 100 + i) else (1, 0)
    seToJsValue := fun v =>
      match v with
      | Value.Object o => o * 10
      | _ => 98
    jsToSeValue := fun v => if v % 10 = 0 ∧ v ≠ 0 then Value.Object (v / 10) else Value.Undefined
    jsStringToStdString := fun v old =>
      if v = 200 then "a" else if v = 201 then "b" else old
    globalObject := 1 }

/-- The host value read at index `i` of the array `keys`: the answer of
`JsGetIndexedProperty` for the number `JsIntToNumber` made of `i`. -/
def elementAt (host : Host) (keys : JsValueRef) (i : Nat) : JsValueRef :=
  (host.JsGetIndexedProperty keys (host.JsIntToNumber (toInt32 i)).2).2

/-- The content of the string `key` of `getAllKeys` after the names at indices below `i`
have been converted into it, one after the other, starting from the empty string. -/
def keyAfter (host : Host) (keys : JsValueRef) : Nat → String
  | 0 => ""
  | i + 1 => host.jsStringToStdString (elementAt host keys i) (keyAfter host keys i)

/-- The name at index `i` of the array `keys`, as a native string. -/
def nameAt (host : Host) (keys : JsValueRef) (i : Nat) : String :=
  keyAfter host keys (i + 1)

/-! ## Properties -/

/-- The log written by `root`: one `JsAddRef` on the 0 → 1 edge, nothing otherwise. -/
theorem root_calls (o : Object) (rt : Runtime) :
    (o.root rt).2.calls =
      rt.calls ++ (if o._rootCount = 0 then [HostCall.JsAddRef o._obj] else []) := by
  unfold Object.root
  by_cases h : o._rootCount = 0 <;> simp [h, Runtime.JsAddRef]

/-- The log written by `unroot`: one `JsRelease` on the 1 → 0 edge outside teardown and
collection, nothing otherwise. -/
theorem unroot_calls (o : Object) (rt : Runtime) (se : ScriptEngine) :
    (o.unroot rt se).2.calls =
      rt.calls ++ (if o._rootCount = 1 ∧ se.isInCleanup = false ∧ se.isGarbageCollecting = false
        then [HostCall.JsRelease o._obj] else []) := by
  unfold Object.unroot
  rcases se with ⟨a, b⟩
  by_cases h0 : o._rootCount > 0
  · by_cases h1 : o._rootCount = 1
    · cases a <;> cases b <;> simp [h1, Runtime.JsRelease]
    · have h2 : ¬ (o._rootCount - 1 = 0) := by omega
      simp [h0, h1, h2]
  · have h1 : ¬ (o._rootCount = 1) := by omega
    simp [h0, h1]

/-- C2 as the code has it: on a wrapper whose root count is positive and below the
maximum of the counter, under any engine phase, `root()` followed by `unroot()` gives back
the same wrapper and the same runtime: the root count is at its prior value and the
host-call log has not grown. Moreover `root` logs a host call only on the 0 → 1 edge and
`unroot` only on the 1 → 0 edge. -/
theorem root_unroot_roundtrip (o : Object) (rt : Runtime) (se : ScriptEngine)
    (h : 0 < o._rootCount) (hmax : o._rootCount + 1 < counterModulus) :
    (o.root rt).1.unroot (o.root rt).2 se = (o, rt) ∧
    ((o.root rt).1.unroot (o.root rt).2 se).1._rootCount = o._rootCount ∧
    ((o.root rt).1.unroot (o.root rt).2 se).2.calls = rt.calls ∧
    (∀ (o1 : Object) (rt1 : Runtime), (o1.root rt1).2.calls ≠ rt1.calls →
      o1._rootCount = 0 ∧ (o1.root rt1).1._rootCount = 1) ∧
    (∀ (o1 : Object) (rt1 : Runtime) (se1 : ScriptEngine),
      (o1.unroot rt1 se1).2.calls ≠ rt1.calls →
      o1._rootCount = 1 ∧ (o1.unroot rt1 se1).1._rootCount = 0) := by
  have hne : o._rootCount ≠ 0 := by omega
  have hmod : (o._rootCount + 1) % counterModulus = o._rootCount + 1 := Nat.mod_eq_of_lt hmax
  have key : (o.root rt).1.unroot (o.root rt).2 se = (o, rt) := by
    simp [Object.root, Object.unroot, hne, hmod]
  refine ⟨key, by rw [key], by rw [key], ?_, ?_⟩
  · intro o1 rt1 hc
    rw [root_calls] at hc
    by_cases h0 : o1._rootCount = 0
    · exact ⟨h0, by simp [Object.root, h0, counterModulus]⟩
    · simp [h0] at hc
  · intro o1 rt1 se1 hc
    rw [unroot_calls] at hc
    by_cases h1 : o1._rootCount = 1 ∧ se1.isInCleanup = false ∧ se1.isGarbageCollecting = false
    · refine ⟨h1.1, ?_⟩
      simp [Object.unroot, h1.1]
      split_ifs <;> rfl
    · simp [h1] at hc

/-- Witness for `root_unroot_roundtrip`: a wrapper with root count 2, engine in teardown. -/
theorem root_unroot_roundtrip_witness :
    (({ Object.new with _obj := 7, _rootCount := 2 } : Object).root Runtime.empty).1.unroot
        (({ Object.new with _obj := 7, _rootCount := 2 } : Object).root Runtime.empty).2
        ⟨true, false⟩
      = (({ Object.new with _obj := 7, _rootCount := 2 } : Object), Runtime.empty) :=
  (root_unroot_roundtrip { Object.new with _obj := 7, _rootCount := 2 } Runtime.empty
    ⟨true, false⟩ (by decide) (by decide)).1

/-- C2 as stated fails: on a wrapper whose root count is at the maximum of the counter,
`root()` wraps the count to 0 without a host call and `unroot()` then does nothing, so the
count is 0 afterwards and not its prior value. -/
theorem root_unroot_at_maximum_loses_count :
    0 < ({ Object.new with _obj := 7, _rootCount := 4294967295 } : Object)._rootCount ∧
    ((({ Object.new with _obj := 7, _rootCount := 4294967295 } : Object).root Runtime.empty
        ).1.unroot
        (({ Object.new with _obj := 7, _rootCount := 4294967295 } : Object).root Runtime.empty).2
        ScriptEngine.normal).1._rootCount = 0 ∧
    ((({ Object.new with _obj := 7, _rootCount := 4294967295 } : Object).root Runtime.empty
        ).1.unroot
        (({ Object.new with _obj := 7, _rootCount := 4294967295 } : Object).root Runtime.empty).2
        ScriptEngine.normal).2.calls = [] := by
  decide

/-- No rooting operation changes the host handle of the wrapper. -/
theorem step_obj (s : Object × Runtime) (st : RootOp × ScriptEngine) :
    (Object.step s st).1._obj = s.1._obj := by
  rcases st with ⟨op, se⟩
  cases op with
  | root => simp [Object.step, Object.root]
  | unroot =>
    simp only [Object.step, Object.unroot]
    split_ifs <;> rfl
  | _cleanup p =>
    simp only [Object.step, Object._cleanup]
    split_ifs <;> rfl

/-- The registry part of `_cleanup` leaves the protection counts alone. -/
theorem cleanup_refs (o : Object) (rt : Runtime) (se : ScriptEngine) (p : Ptr) (x : JsValueRef) :
    (o._cleanup rt se p).2.refs x =
      if o._isCleanup = false ∧ 0 < o._rootCount ∧ se.isInCleanup = false ∧
          se.isGarbageCollecting = false ∧ x = o._obj
      then rt.refs o._obj - 1 else rt.refs x := by
  rcases se with ⟨a, b⟩
  unfold Object._cleanup
  cases hc : o._isCleanup
  · by_cases h0 : 0 < o._rootCount
    · cases a <;> cases b <;>
        simp [h0, Runtime.JsRelease, Runtime.getPrivate] <;>
        (split_ifs <;> (try split) <;> simp_all)
    · simp [h0, Runtime.getPrivate]
      split_ifs <;> (try split) <;> simp_all
  · simp

/-- One step keeps "a positive root count means the host value is protected". -/
theorem step_protected (s : Object × Runtime) (st : RootOp × ScriptEngine)
    (h : 0 < s.1._rootCount → 0 < s.2.refs s.1._obj) :
    0 < (Object.step s st).1._rootCount →
      0 < (Object.step s st).2.refs (Object.step s st).1._obj := by
  rcases s with ⟨o, rt⟩
  rcases st with ⟨op, se⟩
  cases op with
  | root =>
    intro _
    simp only [Object.step, Object.root]
    by_cases h0 : o._rootCount = 0
    · simp [h0, Runtime.JsAddRef]
    · have := h (by simp only; omega)
      simpa [h0] using this
  | unroot =>
    simp only [Object.step, Object.unroot]
    by_cases h0 : o._rootCount > 0
    · by_cases h1 : o._rootCount - 1 = 0
      · intro hpos
        exfalso
        revert hpos
        simp only [h0, h1, if_true]
        split_ifs <;> simp [h1]
      · intro _
        have := h h0
        simpa [h0, h1] using this
    · intro hpos
      simp only [h0, if_false] at hpos
  | _cleanup p =>
    simp only [Object.step, Object._cleanup]
    cases hc : o._isCleanup
    · intro hpos
      exfalso
      revert hpos
      by_cases h0 : o._rootCount > 0 <;> simp [h0]
    · simpa using h

/-- One step outside teardown and collection, on a count below the counter's maximum,
keeps "protected exactly when the root count is positive", with a single protection
held, and raises the count by at most one. -/
theorem step_exact (s : Object × Runtime) (op : RootOp)
    (hb : s.1._rootCount + 1 < counterModulus)
    (h : s.2.refs s.1._obj = if 0 < s.1._rootCount then 1 else 0) :
    ((Object.step s (op, ScriptEngine.normal)).2.refs (Object.step s (op, ScriptEngine.normal)).1._obj
      = if 0 < (Object.step s (op, ScriptEngine.normal)).1._rootCount then 1 else 0) ∧
    (Object.step s (op, ScriptEngine.normal)).1._rootCount ≤ s.1._rootCount + 1 := by
  rcases s with ⟨o, rt⟩
  simp only at h hb
  have hmod : (o._rootCount + 1) % counterModulus = o._rootCount + 1 := Nat.mod_eq_of_lt hb
  cases op with
  | root =>
    simp only [Object.step, Object.root, hmod]
    refine ⟨?_, Nat.le_refl _⟩
    by_cases h0 : o._rootCount = 0
    · simp [h0, Runtime.JsAddRef] at h ⊢
      exact h
    · have hp : 0 < o._rootCount := by omega
      simp [h0, hp] at h ⊢
      exact h
  | unroot =>
    simp only [Object.step, Object.unroot, ScriptEngine.normal]
    by_cases h0 : o._rootCount > 0
    · by_cases h1 : o._rootCount - 1 = 0
      · simp [h0, h1, Runtime.JsRelease] at h ⊢
        omega
      · have hp : 0 < o._rootCount - 1 := by omega
        simp [h0, h1, hp] at h ⊢
        exact ⟨h, by omega⟩
    · simp [h0] at h ⊢
      exact h
  | _cleanup p =>
    have hobj := step_obj (o, rt) (RootOp._cleanup p, ScriptEngine.normal)
    simp only [Object.step] at hobj ⊢
    rw [hobj, cleanup_refs]
    simp only [Object._cleanup, ScriptEngine.normal]
    cases hc : o._isCleanup
    · by_cases h0 : o._rootCount > 0
      · simp [h0] at h ⊢
        omega
      · simp [h0] at h ⊢
        exact h
    · simpa using h

/-- One step keeps the root count within the range of the counter. -/
theorem step_range (s : Object × Runtime) (st : RootOp × ScriptEngine)
    (h : s.1._rootCount < counterModulus) :
    (Object.step s st).1._rootCount < counterModulus := by
  rcases s with ⟨o, rt⟩
  rcases st with ⟨op, se⟩
  simp only at h
  cases op with
  | root =>
    simp only [Object.step, Object.root]
    exact Nat.mod_lt _ (by decide)
  | unroot =>
    simp only [Object.step, Object.unroot]
    split_ifs <;> simp only <;> omega
  | _cleanup p =>
    simp only [Object.step, Object._cleanup]
    split_ifs <;> simp only <;> first | exact h | decide

/-- The host handle is the same after any sequence of rooting operations. -/
theorem steps_obj (l : List (RootOp × ScriptEngine)) (s : Object × Runtime) :
    (Object.steps s l).1._obj = s.1._obj := by
  induction l generalizing s with
  | nil => rfl
  | cons st rest ih =>
    simp only [Object.steps, List.foldl_cons] at ih ⊢
    rw [ih, step_obj]

/-- The root count stays within the range of the counter over any sequence of rooting
operations. -/
theorem steps_range (l : List (RootOp × ScriptEngine)) (s : Object × Runtime)
    (h : s.1._rootCount < counterModulus) :
    (Object.steps s l).1._rootCount < counterModulus := by
  induction l generalizing s with
  | nil => exact h
  | cons st rest ih =>
    simp only [Object.steps, List.foldl_cons] at ih ⊢
    exact ih _ (step_range s st h)

/-- A positive root count means protection, after any sequence of rooting operations. -/
theorem steps_protected (l : List (RootOp × ScriptEngine)) (s : Object × Runtime)
    (h : 0 < s.1._rootCount → 0 < s.2.refs s.1._obj) :
    0 < (Object.steps s l).1._rootCount →
      0 < (Object.steps s l).2.refs (Object.steps s l).1._obj := by
  induction l generalizing s with
  | nil => exact h
  | cons st rest ih =>
    simp only [Object.steps, List.foldl_cons] at ih ⊢
    exact ih _ (step_protected s st h)

/-- Outside teardown and collection, and as long as the operations left cannot take the
count past the counter's maximum, the protection count is 1 or 0 with the root count
positive or zero, after any sequence of rooting operations. -/
theorem steps_exact (l : List (RootOp × ScriptEngine)) (s : Object × Runtime)
    (hn : ∀ st ∈ l, st.2 = ScriptEngine.normal)
    (hb : s.1._rootCount + l.length < counterModulus)
    (h : s.2.refs s.1._obj = if 0 < s.1._rootCount then 1 else 0) :
    (Object.steps s l).2.refs (Object.steps s l).1._obj
      = if 0 < (Object.steps s l).1._rootCount then 1 else 0 := by
  induction l generalizing s with
  | nil => exact h
  | cons st rest ih =>
    simp only [Object.steps, List.foldl_cons] at ih ⊢
    simp only [List.length_cons] at hb
    have hst : st = (st.1, ScriptEngine.normal) := by
      rw [← hn st (List.mem_cons_self _ _)]
    have hstep := step_exact s st.1 (by omega) h
    rw [← hst] at hstep
    apply ih
    · intro t ht
      exact hn t (List.mem_cons_of_mem _ ht)
    · have := hstep.2
      omega
    · exact hstep.1

/-- After `n` calls of `root()` on a new wrapper, `n` between 1 and the counter's modulus,
one protection is held and the root count is `n` reduced modulo the range of the counter. -/
theorem roots_from_new (obj : JsValueRef) (rt : Runtime) (h0 : rt.refs obj = 0) (n : Nat)
    (h1 : 0 < n) (hn : n ≤ counterModulus) :
    (Object.steps ((Object.new.init obj).1, rt)
        (List.replicate n (RootOp.root, ScriptEngine.normal))).1._rootCount
      = n % counterModulus ∧
    (Object.steps ((Object.new.init obj).1, rt)
        (List.replicate n (RootOp.root, ScriptEngine.normal))).2.refs obj = 1 := by
  induction n with
  | zero => omega
  | succ n ih =>
    have hobj := steps_obj (List.replicate n (RootOp.root, ScriptEngine.normal))
      ((Object.new.init obj).1, rt)
    have hobj1 : (Object.steps ((Object.new.init obj).1, rt)
        (List.replicate n (RootOp.root, ScriptEngine.normal))).1._obj = obj := by
      rw [hobj]; rfl
    rw [List.replicate_succ']
    simp only [Object.steps, List.foldl_append, List.foldl_cons, List.foldl_nil] at ih hobj1 ⊢
    by_cases hz : n = 0
    · subst hz
      simp [Object.step, Object.root, Object.init, Object.new, Runtime.JsAddRef, h0,
        counterModulus]
    · have hih := ih (by omega) (by omega)
      have hlt : n % counterModulus = n := Nat.mod_eq_of_lt (by omega)
      have hne : (List.foldl Object.step ((Object.new.init obj).1, rt)
          (List.replicate n (RootOp.root, ScriptEngine.normal))).1._rootCount ≠ 0 := by
        rw [hih.1, hlt]; exact hz
      refine ⟨?_, ?_⟩
      · simp only [Object.step, Object.root]
        rw [hih.1, hlt]
      · simp only [Object.step, Object.root, hne, if_false]
        exact hih.2

/-- C3 as the code has it: from a wrapper as constructed and initialised with host
handle `obj`, not yet protected, after any sequence of `root()`, `unroot()` and
`_cleanup()` under any engine phases, the root count is within the range of its counter
(at least 0, below the modulus) and a positive root count means the host value is
protected. When every operation ran outside teardown and collection and the sequence is
shorter than the counter's modulus (so the count cannot have wrapped), the host value is
protected exactly when the root count is positive. -/
theorem rootCount_protection (obj : JsValueRef) (rt : Runtime)
    (l : List (RootOp × ScriptEngine)) (h0 : rt.refs obj = 0) :
    (Object.steps ((Object.new.init obj).1, rt) l).1._rootCount < counterModulus ∧
    (0 < (Object.steps ((Object.new.init obj).1, rt) l).1._rootCount →
      0 < (Object.steps ((Object.new.init obj).1, rt) l).2.refs obj) ∧
    ((∀ st ∈ l, st.2 = ScriptEngine.normal) → l.length < counterModulus →
      (0 < (Object.steps ((Object.new.init obj).1, rt) l).2.refs obj ↔
        0 < (Object.steps ((Object.new.init obj).1, rt) l).1._rootCount)) := by
  have hobj := steps_obj l ((Object.new.init obj).1, rt)
  have hobj1 : (Object.steps ((Object.new.init obj).1, rt) l).1._obj = obj := by
    rw [hobj]; rfl
  refine ⟨steps_range l _ (by simp [Object.init, Object.new, counterModulus]), ?_, ?_⟩
  · intro hpos
    have := steps_protected l ((Object.new.init obj).1, rt)
      (by intro hc; simp [Object.init, Object.new] at hc) hpos
    rwa [hobj1] at this
  · intro hn hlen
    have := steps_exact l ((Object.new.init obj).1, rt) hn
      (by simpa [Object.init, Object.new] using hlen)
      (by simp [Object.init, Object.new, h0])
    rw [hobj1] at this
    rw [this]
    split_ifs with hp
    · simp [hp]
    · simp [hp]

/-- Witness for `rootCount_protection`: root, root, unroot on a new wrapper. -/
theorem rootCount_protection_witness :
    0 < (Object.steps ((Object.new.init 3).1, Runtime.empty)
          [(RootOp.root, ScriptEngine.normal), (RootOp.root, ScriptEngine.normal),
           (RootOp.unroot, ScriptEngine.normal)]).2.refs 3 :=
  (rootCount_protection 3 Runtime.empty
    [(RootOp.root, ScriptEngine.normal), (RootOp.root, ScriptEngine.normal),
     (RootOp.unroot, ScriptEngine.normal)] rfl).2.1 (by decide)

/-- C3 as stated fails, in two ways. `root()` and then `unroot()` while the engine is in
cleanup leave the root count at 0 and the host value still protected (the release is
skipped). And with the engine outside teardown and collection throughout, as many
`root()` calls as the counter has values wrap the root count to 0 while the protection
taken by the first call is still held. -/
theorem unroot_in_cleanup_keeps_protection :
    ((Object.steps ((Object.new.init 1).1, Runtime.empty)
        [(RootOp.root, ScriptEngine.normal), (RootOp.unroot, ⟨true, false⟩)]).1._rootCount = 0 ∧
     (Object.steps ((Object.new.init 1).1, Runtime.empty)
        [(RootOp.root, ScriptEngine.normal), (RootOp.unroot, ⟨true, false⟩)]).2.refs 1 = 1 ∧
     ¬ (0 < (Object.steps ((Object.new.init 1).1, Runtime.empty)
        [(RootOp.root, ScriptEngine.normal), (RootOp.unroot, ⟨true, false⟩)]).2.refs 1 ↔
       0 < (Object.steps ((Object.new.init 1).1, Runtime.empty)
        [(RootOp.root, ScriptEngine.normal), (RootOp.unroot, ⟨true, false⟩)]).1._rootCount)) ∧
    ((Object.steps ((Object.new.init 1).1, Runtime.empty)
        (List.replicate 4294967296 (RootOp.root, ScriptEngine.normal))).1._rootCount = 0 ∧
     (Object.steps ((Object.new.init 1).1, Runtime.empty)
        (List.replicate 4294967296 (RootOp.root, ScriptEngine.normal))).2.refs 1 = 1) := by
  refine ⟨by decide, ?_⟩
  have h := roots_from_new 1 Runtime.empty rfl 4294967296 (by decide) (Nat.le_refl _)
  exact ⟨h.1.trans (Nat.mod_self _), h.2⟩

/-- Erasing a key keeps exactly the entries under other keys, in their order. -/
theorem PtrMap.erase_eq_filter (m : PtrMap) (key : Ptr) :
    PtrMap.erase m key = m.filter (fun e => decide (e.1 ≠ key)) := by
  induction m with
  | nil => rfl
  | cons e rest ih =>
    rcases e with ⟨k, v⟩
    by_cases h : k = key
    · simp [PtrMap.erase, h, ih]
    · simp [PtrMap.erase, h, ih]

/-- A lookup fails exactly when no entry has the key. -/
theorem PtrMap.find_eq_none (m : PtrMap) (key : Ptr) :
    PtrMap.find m key = none ↔ ∀ e ∈ m, e.1 ≠ key := by
  induction m with
  | nil => simp [PtrMap.find]
  | cons e rest ih =>
    rcases e with ⟨k, v⟩
    by_cases h : k = key
    · simp [PtrMap.find, h]
    · simp [PtrMap.find, h, ih]

/-- Erasing a key that is not there changes nothing. -/
theorem PtrMap.erase_of_find_none (m : PtrMap) (key : Ptr) (h : PtrMap.find m key = none) :
    PtrMap.erase m key = m := by
  rw [PtrMap.erase_eq_filter, List.filter_eq_self]
  intro e he
  have := (PtrMap.find_eq_none m key).1 h e he
  simpa using this

/-- After an erase the key is not found. -/
theorem PtrMap.find_erase_self (m : PtrMap) (key : Ptr) :
    PtrMap.find (PtrMap.erase m key) key = none := by
  rw [PtrMap.find_eq_none, PtrMap.erase_eq_filter]
  intro e he
  have := (List.mem_filter.1 he).2
  simpa using this

/-- The registry after `_cleanup`, on a wrapper whose cleanup flag is not set. -/
theorem cleanup_registry (o : Object) (rt : Runtime) (se : ScriptEngine) (p : Ptr)
    (h : o._isCleanup = false) :
    (o._cleanup rt se p).2.nativePtrToObjectMap =
      if o._privateData ≠ 0 ∧ o._obj ≠ 0 ∧ (if p = 0 then rt.slot o._obj else p) ≠ 0
      then PtrMap.erase rt.nativePtrToObjectMap (if p = 0 then rt.slot o._obj else p)
      else rt.nativePtrToObjectMap := by
  rcases se with ⟨a, b⟩
  unfold Object._cleanup
  by_cases hp : o._privateData = 0 <;> by_cases ho : o._obj = 0 <;> by_cases hn : p = 0 <;>
    by_cases hs : rt.slot o._obj = 0 <;> by_cases hr : o._rootCount > 0 <;>
    cases a <;> cases b <;>
    simp [h, hp, ho, hn, hs, hr, Runtime.JsRelease, Runtime.getPrivate] <;>
    (split <;> simp_all [PtrMap.erase_of_find_none])

/-- The log written by `_cleanup` on a wrapper whose cleanup flag is not set: the slot
read when the pointer has to be looked up, then the release when the wrapper is rooted
and the engine is outside teardown and collection. -/
theorem cleanup_calls (o : Object) (rt : Runtime) (se : ScriptEngine) (p : Ptr)
    (h : o._isCleanup = false) :
    (o._cleanup rt se p).2.calls =
      rt.calls
        ++ (if o._privateData ≠ 0 ∧ o._obj ≠ 0 ∧ p = 0 then [HostCall.getPrivate o._obj] else [])
        ++ (if 0 < o._rootCount ∧ se.isInCleanup = false ∧ se.isGarbageCollecting = false
            then [HostCall.JsRelease o._obj] else []) := by
  rcases se with ⟨a, b⟩
  unfold Object._cleanup
  by_cases hp : o._privateData = 0 <;> by_cases ho : o._obj = 0 <;> by_cases hn : p = 0 <;>
    by_cases hs : rt.slot o._obj = 0 <;> by_cases hr : o._rootCount > 0 <;>
    cases a <;> cases b <;>
    simp [h, hp, ho, hn, hs, hr, Runtime.JsRelease, Runtime.getPrivate] <;>
    (split <;> simp_all)

/-- After `_cleanup` the cleanup flag is set and the root count is 0. -/
theorem cleanup_fields (o : Object) (rt : Runtime) (se : ScriptEngine) (p : Ptr)
    (h : o._isCleanup = false) :
    (o._cleanup rt se p).1._isCleanup = true ∧ (o._cleanup rt se p).1._rootCount = 0 := by
  unfold Object._cleanup
  by_cases hr : o._rootCount > 0
  · simp [h, hr]
  · simp [h, hr]
    omega

/-- C4: `_cleanup` is idempotent. For every wrapper, runtime (registry included), engine
phases and explicit pointers of the two runs, a second `_cleanup` directly after a first
one returns the wrapper and the runtime of the first run unchanged; in particular the
host-call log has not grown. -/
theorem cleanup_idempotent (o : Object) (rt : Runtime) (se1 se2 : ScriptEngine) (p1 p2 : Ptr) :
    (o._cleanup rt se1 p1).1._cleanup (o._cleanup rt se1 p1).2 se2 p2 = o._cleanup rt se1 p1 ∧
    ((o._cleanup rt se1 p1).1._cleanup (o._cleanup rt se1 p1).2 se2 p2).2.nativePtrToObjectMap
      = (o._cleanup rt se1 p1).2.nativePtrToObjectMap ∧
    ((o._cleanup rt se1 p1).1._cleanup (o._cleanup rt se1 p1).2 se2 p2).2.calls
      = (o._cleanup rt se1 p1).2.calls := by
  have hflag : (o._cleanup rt se1 p1).1._isCleanup = true := by
    cases hc : o._isCleanup
    · exact (cleanup_fields o rt se1 p1 hc).1
    · simp [Object._cleanup, hc]
  have key : (o._cleanup rt se1 p1).1._cleanup (o._cleanup rt se1 p1).2 se2 p2
      = o._cleanup rt se1 p1 := by
    generalize o._cleanup rt se1 p1 = r at hflag ⊢
    simp [Object._cleanup, hflag]
  exact ⟨key, by rw [key], by rw [key]⟩

/-- C5 as the code has it: `_cleanup` on a wrapper whose cleanup flag is not set leaves
the flag set and the root count 0. When the wrapper has private data, a non-null host
handle and a non-null resolved pointer (the explicit argument, or the host slot's content
when the argument is null), the registry afterwards has no entry for that pointer and
keeps every other entry, in order; in every other case the registry is unchanged. The
host release is logged exactly once when the root count was positive and the engine is
neither in cleanup nor collecting, and not at all otherwise. -/
theorem cleanup_postcondition (o : Object) (rt : Runtime) (se : ScriptEngine) (p : Ptr)
    (h : o._isCleanup = false) :
    (o._cleanup rt se p).1._isCleanup = true ∧
    (o._cleanup rt se p).1._rootCount = 0 ∧
    (o._privateData ≠ 0 → o._obj ≠ 0 → (if p = 0 then rt.slot o._obj else p) ≠ 0 →
      PtrMap.find (o._cleanup rt se p).2.nativePtrToObjectMap
          (if p = 0 then rt.slot o._obj else p) = none ∧
      (o._cleanup rt se p).2.nativePtrToObjectMap =
        rt.nativePtrToObjectMap.filter
          (fun e => decide (e.1 ≠ (if p = 0 then rt.slot o._obj else p)))) ∧
    (¬ (o._privateData ≠ 0 ∧ o._obj ≠ 0 ∧ (if p = 0 then rt.slot o._obj else p) ≠ 0) →
      (o._cleanup rt se p).2.nativePtrToObjectMap = rt.nativePtrToObjectMap) ∧
    ((o._cleanup rt se p).2.calls.count (HostCall.JsRelease o._obj) =
      rt.calls.count (HostCall.JsRelease o._obj) +
        (if 0 < o._rootCount ∧ se.isInCleanup = false ∧ se.isGarbageCollecting = false
          then 1 else 0)) ∧
    (∀ x, x ≠ o._obj → (o._cleanup rt se p).2.calls.count (HostCall.JsRelease x) =
      rt.calls.count (HostCall.JsRelease x)) := by
  refine ⟨(cleanup_fields o rt se p h).1, (cleanup_fields o rt se p h).2, ?_, ?_, ?_, ?_⟩
  · intro hp ho hr
    rw [cleanup_registry o rt se p h, if_pos ⟨hp, ho, hr⟩]
    exact ⟨PtrMap.find_erase_self _ _, PtrMap.erase_eq_filter _ _⟩
  · intro hn
    rw [cleanup_registry o rt se p h, if_neg hn]
  · rw [cleanup_calls o rt se p h]
    simp only [List.count_append]
    split_ifs <;> simp
  · intro x hx
    rw [cleanup_calls o rt se p h]
    simp only [List.count_append]
    split_ifs <;> simp [hx, Ne.symm hx]

/-- Witness for `cleanup_postcondition`: a rooted wrapper registered under pointer 5. -/
theorem cleanup_postcondition_witness :
    (({ Object.new with _obj := 2, _rootCount := 1, _privateData := 5 } : Object)._cleanup
        { Runtime.empty with nativePtrToObjectMap := [(5, 1), (6, 2)] }
        ScriptEngine.normal 5).1._isCleanup = true :=
  (cleanup_postcondition { Object.new with _obj := 2, _rootCount := 1, _privateData := 5 }
    { Runtime.empty with nativePtrToObjectMap := [(5, 1), (6, 2)] }
    ScriptEngine.normal 5 rfl).1

/-- C5 as stated fails: a wrapper constructed without a host handle and given private
data 5 keeps its registry entry through `_cleanup(5)`, because the code guards the
registry removal with `_obj != nullptr`. -/
theorem cleanup_keeps_entry_without_handle :
    (Object.new.setPrivateData 1 Runtime.empty 5).map
      (fun r => (r.1._isCleanup, decide (r.1._privateData ≠ 0),
        PtrMap.find (r.1._cleanup r.2 ScriptEngine.normal 5).2.nativePtrToObjectMap 5))
      = some (false, true, some 1) := by
  decide

/-- C7 as the code has it: on a wrapper whose cleanup flag is set, `_cleanup()` changes
nothing and logs no host call. The other operations do not read the flag: `root()` logs
`JsAddRef` exactly when the root count is 0, `unroot()` logs `JsRelease` exactly when the
root count is 1 and the engine is neither in cleanup nor collecting, `clearPrivateData()`
logs `clearPrivate` exactly when private data is set, and `getPrivateData()` logs
`getPrivate` exactly when no private data is cached. -/
theorem cleaned_wrapper_host_calls (o : Object) (rt : Runtime) (se : ScriptEngine) (p : Ptr)
    (h : o._isCleanup = true) :
    o._cleanup rt se p = (o, rt) ∧
    (o.root rt).2.calls =
      rt.calls ++ (if o._rootCount = 0 then [HostCall.JsAddRef o._obj] else []) ∧
    (o.unroot rt se).2.calls =
      rt.calls ++ (if o._rootCount = 1 ∧ se.isInCleanup = false ∧ se.isGarbageCollecting = false
        then [HostCall.JsRelease o._obj] else []) ∧
    (o.clearPrivateData rt).2.calls =
      rt.calls ++ (if o._privateData ≠ 0 then [HostCall.clearPrivate o._obj] else []) ∧
    (o.getPrivateData rt).2.2.calls =
      rt.calls ++ (if o._privateData = 0 then [HostCall.getPrivate o._obj] else []) := by
  refine ⟨by simp [Object._cleanup, h], root_calls o rt, unroot_calls o rt se, ?_, ?_⟩
  · by_cases hp : o._privateData = 0
    · simp [Object.clearPrivateData, hp]
    · simp [Object.clearPrivateData, Object.getPrivateData, Runtime.clearPrivate, hp]
  · by_cases hp : o._privateData = 0
    · simp [Object.getPrivateData, Runtime.getPrivate, hp]
    · simp [Object.getPrivateData, hp]

/-- Witness for `cleaned_wrapper_host_calls`: the wrapper left by `_cleanup`. -/
theorem cleaned_wrapper_host_calls_witness :
    ({ Object.new with _obj := 1, _isCleanup := true } : Object)._cleanup Runtime.empty
        ScriptEngine.normal 0
      = (({ Object.new with _obj := 1, _isCleanup := true } : Object), Runtime.empty) :=
  (cleaned_wrapper_host_calls { Object.new with _obj := 1, _isCleanup := true } Runtime.empty
    ScriptEngine.normal 0 rfl).1

/-- C7 as stated fails: after `_cleanup()` has set the flag of a new wrapper, `root()`
calls `JsAddRef`, and with private data cached `clearPrivateData()` calls `clearPrivate`. -/
theorem root_after_cleanup_calls_host :
    ((Object.new.init 1).1._cleanup Runtime.empty ScriptEngine.normal 0).1._isCleanup = true ∧
    (((Object.new.init 1).1._cleanup Runtime.empty ScriptEngine.normal 0).1.root
        ((Object.new.init 1).1._cleanup Runtime.empty ScriptEngine.normal 0).2).2.calls
      = [HostCall.JsAddRef 1] ∧
    ((({ Object.new with _obj := 1, _privateData := 5, _isCleanup := true } : Object)
        ).clearPrivateData Runtime.empty).2.calls = [HostCall.clearPrivate 1] := by
  decide

/-- Erasing keeps the keys distinct. -/
theorem PtrMap.erase_nodup (m : PtrMap) (key : Ptr) (h : (m.map Prod.fst).Nodup) :
    ((PtrMap.erase m key).map Prod.fst).Nodup := by
  rw [PtrMap.erase_eq_filter]
  exact h.sublist ((List.filter_sublist m).map Prod.fst)

/-- Inserting keeps the keys distinct. -/
theorem PtrMap.emplace_nodup (m : PtrMap) (key : Ptr) (value : Nat)
    (h : (m.map Prod.fst).Nodup) : ((PtrMap.emplace m key value).map Prod.fst).Nodup := by
  unfold PtrMap.emplace
  cases hf : PtrMap.find m key with
  | some v => simpa using h
  | none =>
    have hn := (PtrMap.find_eq_none m key).1 hf
    simp only [List.map_append, List.map_cons, List.map_nil]
    refine List.Nodup.append h (List.nodup_singleton _) ?_
    intro k hk hk1
    rcases List.mem_map.1 hk with ⟨e, he, rfl⟩
    simp only [List.mem_singleton] at hk1
    exact hn e he hk1

/-- Inserting under a key that is there changes nothing. -/
theorem PtrMap.emplace_of_find_isSome (m : PtrMap) (key : Ptr) (value : Nat)
    (h : (PtrMap.find m key).isSome = true) : PtrMap.emplace m key value = m := by
  unfold PtrMap.emplace
  cases hf : PtrMap.find m key with
  | some v => rfl
  | none => rw [hf] at h; exact absurd h (by decide)

/-- The registry after `_cleanup` is the old one, or the old one with one key erased. -/
theorem cleanup_registry_cases (o : Object) (rt : Runtime) (se : ScriptEngine) (p : Ptr) :
    (o._cleanup rt se p).2.nativePtrToObjectMap = rt.nativePtrToObjectMap ∨
    ∃ k, (o._cleanup rt se p).2.nativePtrToObjectMap = PtrMap.erase rt.nativePtrToObjectMap k := by
  cases hc : o._isCleanup
  · rw [cleanup_registry o rt se p hc]
    by_cases hx : o._privateData ≠ 0 ∧ o._obj ≠ 0 ∧ (if p = 0 then rt.slot o._obj else p) ≠ 0
    · rw [if_pos hx]
      exact Or.inr ⟨_, rfl⟩
    · rw [if_neg hx]
      exact Or.inl rfl
  · left
    simp [Object._cleanup, hc]

/-- The registry after `clearPrivateData`. -/
theorem clearPrivateData_registry (o : Object) (rt : Runtime) :
    (o.clearPrivateData rt).2.nativePtrToObjectMap =
      if o._privateData ≠ 0 then PtrMap.erase rt.nativePtrToObjectMap o._privateData
      else rt.nativePtrToObjectMap := by
  by_cases hp : o._privateData = 0
  · simp [Object.clearPrivateData, hp]
  · simp [Object.clearPrivateData, Object.getPrivateData, Runtime.clearPrivate, hp]

/-- The registry after a successful `setPrivateData`. -/
theorem setPrivateData_registry (o : Object) (this : Nat) (rt : Runtime) (data : Ptr)
    (r : Object × Runtime) (h : o.setPrivateData this rt data = some r) :
    r.2.nativePtrToObjectMap = PtrMap.emplace rt.nativePtrToObjectMap data this := by
  unfold Object.setPrivateData at h
  split_ifs at h
  simp only [Option.some.injEq] at h
  rw [← h]
  rfl

/-- One operation keeps the registry's keys distinct. -/
theorem apply_nodup (w w1 : World) (op : RegistryOp) (h : w.apply op = some w1)
    (hn : (w.rt.nativePtrToObjectMap.map Prod.fst).Nodup) :
    (w1.rt.nativePtrToObjectMap.map Prod.fst).Nodup := by
  cases op with
  | setPrivateData this data =>
    simp only [World.apply, World.setPrivateData] at h
    cases hs : (w.heap this).setPrivateData this w.rt data with
    | none => rw [hs] at h; exact absurd h (by simp)
    | some r =>
      rw [hs] at h
      simp only [Option.some.injEq] at h
      rw [← h]
      simp only [World.set]
      rw [setPrivateData_registry _ _ _ _ _ hs]
      exact PtrMap.emplace_nodup _ _ _ hn
  | clearPrivateData this =>
    simp only [World.apply, World.clearPrivateData, Option.some.injEq] at h
    rw [← h]
    simp only [World.set]
    rw [clearPrivateData_registry]
    split_ifs
    · exact PtrMap.erase_nodup _ _ hn
    · exact hn
  | _cleanup this se p =>
    simp only [World.apply, World._cleanup, Option.some.injEq] at h
    rw [← h]
    simp only [World.set]
    rcases cleanup_registry_cases (w.heap this) w.rt se p with h1 | ⟨k, h1⟩
    · rw [h1]; exact hn
    · rw [h1]; exact PtrMap.erase_nodup _ _ hn

/-- Any sequence of operations keeps the registry's keys distinct. -/
theorem run_nodup (ops : List RegistryOp) (w w1 : World) (h : w.run ops = some w1)
    (hn : (w.rt.nativePtrToObjectMap.map Prod.fst).Nodup) :
    (w1.rt.nativePtrToObjectMap.map Prod.fst).Nodup := by
  induction ops generalizing w with
  | nil =>
    simp only [World.run, Option.some.injEq] at h
    rw [← h]; exact hn
  | cons op rest ih =>
    simp only [World.run] at h
    cases ha : w.apply op with
    | none => rw [ha] at h; exact absurd h (by simp)
    | some w2 =>
      rw [ha] at h
      exact ih w2 h (apply_nodup w w2 op ha hn)

/-- C1: in every state reached from new wrappers and an empty registry through
`setPrivateData`, `clearPrivateData` and `_cleanup`, the registry holds each native
pointer at most once (so a pointer is registered to at most one wrapper), and
`setPrivateData(p)` fails, the assertion stopping it before anything is written, whenever
`p` is already registered or the receiver already has private data; the registry's own
`emplace` would also leave a registry holding `p` as it is. -/
theorem registry_unique (objOf : Nat → JsValueRef) (ops : List RegistryOp) (w : World)
    (h : (World.fresh objOf).run ops = some w) :
    (w.rt.nativePtrToObjectMap.map Prod.fst).Nodup ∧
    (∀ (p : Ptr) (a b : Nat), (p, a) ∈ w.rt.nativePtrToObjectMap →
      (p, b) ∈ w.rt.nativePtrToObjectMap → a = b) ∧
    (∀ (this : Nat) (p : Ptr),
      (PtrMap.find w.rt.nativePtrToObjectMap p).isSome = true ∨ (w.heap this)._privateData ≠ 0 →
      w.setPrivateData this p = none ∧ w.run [RegistryOp.setPrivateData this p] = none) ∧
    (∀ (this : Nat) (p : Ptr), (PtrMap.find w.rt.nativePtrToObjectMap p).isSome = true →
      PtrMap.emplace w.rt.nativePtrToObjectMap p this = w.rt.nativePtrToObjectMap) := by
  have hn : (w.rt.nativePtrToObjectMap.map Prod.fst).Nodup :=
    run_nodup ops _ w h (by simp [World.fresh, Runtime.empty])
  refine ⟨hn, ?_, ?_, ?_⟩
  · intro p a b ha hb
    exact (List.nodup_map_iff_inj_on (hn.of_map _)).1 hn (p, a) ha (p, b) hb rfl |> fun e =>
      (Prod.mk.inj e).2
  · intro this p hp
    have hs : w.setPrivateData this p = none := by
      unfold World.setPrivateData Object.setPrivateData
      rcases hp with hp | hp
      · by_cases hd : (w.heap this)._privateData = 0 <;> simp [hd, hp]
      · simp [hp]
    exact ⟨hs, by simp [World.run, World.apply, hs]⟩
  · intro this p hp
    exact PtrMap.emplace_of_find_isSome _ _ _ hp

/-- Witness for `registry_unique`: two wrappers registered, one of them cleared again. -/
theorem registry_unique_witness :
    ∃ w, (World.fresh (fun x => x + 1)).run
        [RegistryOp.setPrivateData 1 5, RegistryOp.setPrivateData 2 6,
         RegistryOp.clearPrivateData 1] = some w ∧
      (w.rt.nativePtrToObjectMap.map Prod.fst).Nodup :=
  ⟨_, rfl, (registry_unique (fun x => x + 1)
    [RegistryOp.setPrivateData 1 5, RegistryOp.setPrivateData 2 6,
     RegistryOp.clearPrivateData 1] _ rfl).1⟩

/-- The destructor of a wrapper whose cleanup flag is set changes nothing. -/
theorem destructor_flagged (w : World) (this : Nat) (se : ScriptEngine)
    (h : (w.heap this)._isCleanup = true) :
    (w.destructor this se).rt = w.rt ∧ ∀ x, (w.destructor this se).heap x = w.heap x := by
  have hc : (w.heap this)._cleanup w.rt se 0 = (w.heap this, w.rt) := by
    simp only [Object._cleanup, h, if_true]
  refine ⟨?_, ?_⟩
  · simp only [World.destructor, World._cleanup, World.set, hc]
  · intro x
    simp only [World.destructor, World._cleanup, World.set, hc]
    by_cases hx : x = this
    · rw [if_pos hx, hx]
    · rw [if_neg hx]

/-- On a wrapper whose cleanup flag is set, `decRef` (destructor included) leaves the
process-wide state alone, changes only the reference count of that wrapper, and deletes
it exactly when the count has reached zero. -/
theorem decRef_flagged (w : World) (this : Nat) (se : ScriptEngine)
    (h : (w.heap this)._isCleanup = true) :
    (w.decRef this se).1.rt = w.rt ∧
    (∀ x, (w.decRef this se).1.heap x =
      if x = this then { w.heap this with _refCount := counterPred (w.heap this)._refCount }
      else w.heap x) ∧
    (w.decRef this se).2 = decide (counterPred (w.heap this)._refCount = 0) := by
  have hflag : ((w.set this { w.heap this with
      _refCount := counterPred (w.heap this)._refCount } w.rt).heap this)._isCleanup = true := by
    simp only [World.set, if_true]
    exact h
  have hdes := destructor_flagged _ this se hflag
  by_cases h0 : counterPred (w.heap this)._refCount = 0
  · have hd : w.decRef this se =
        ((w.set this { w.heap this with _refCount := counterPred (w.heap this)._refCount }
            w.rt).destructor this se, true) := by
      unfold World.decRef
      exact if_pos h0
    rw [hd]
    refine ⟨hdes.1, fun x => (hdes.2 x).trans rfl, ?_⟩
    rw [decide_eq_true h0]
  · have hd : w.decRef this se =
        (w.set this { w.heap this with _refCount := counterPred (w.heap this)._refCount } w.rt,
         false) := by
      unfold World.decRef
      exact if_neg h0
    rw [hd]
    refine ⟨rfl, fun x => rfl, ?_⟩
    rw [decide_eq_false h0]

/-- One turn of the sweep on an entry whose wrapper has not been deleted: no fault, the
process-wide state is untouched, the wrapper gets its flag and loses one reference, and
it is deleted exactly when its count has reached zero. -/
theorem sweepStep_spec (se : ScriptEngine) (s : SweepState) (e : Ptr × Nat)
    (hlive : e.2 ∉ s.deleted) :
    ∃ s1, sweepStep se (some s) e = some s1 ∧
      s1.world.rt = s.world.rt ∧
      s1.seen = s.seen ++ [s.world.rt.nativePtrToObjectMap] ∧
      (∀ x, s1.world.heap x =
        if x = e.2 then
          { s.world.heap x with
            _isCleanup := true
            _refCount := counterPred (s.world.heap x)._refCount }
        else s.world.heap x) ∧
      s1.deleted = s.deleted ++
        (if counterPred (s.world.heap e.2)._refCount = 0 then [e.2] else []) := by
  obtain ⟨w1, hw1⟩ : ∃ w1 : World,
      w1 = s.world.set e.2 { s.world.heap e.2 with _isCleanup := true } s.world.rt := ⟨_, rfl⟩
  have hrt : w1.rt = s.world.rt := by rw [hw1]; rfl
  have hheap : ∀ x, w1.heap x
      = if x = e.2 then { s.world.heap e.2 with _isCleanup := true } else s.world.heap x := by
    intro x; rw [hw1]; rfl
  have hflag : (w1.heap e.2)._isCleanup = true := by
    rw [hheap, if_pos rfl]
  have hd := decRef_flagged w1 e.2 se hflag
  obtain ⟨r, hr⟩ : ∃ r : World × Bool, r = w1.decRef e.2 se := ⟨_, rfl⟩
  rw [← hr] at hd
  have hstep : sweepStep se (some s) e = some
      { world := r.1
        deleted := if r.2 then s.deleted ++ [e.2] else s.deleted
        seen := s.seen ++ [r.1.rt.nativePtrToObjectMap] } := by
    rw [hr, hw1]
    exact if_neg hlive
  refine ⟨_, hstep, ?_, ?_, ?_, ?_⟩
  · show r.1.rt = s.world.rt
    rw [hd.1, hrt]
  · show s.seen ++ [r.1.rt.nativePtrToObjectMap] = _
    rw [hd.1, hrt]
  · intro x
    show r.1.heap x = _
    rw [hd.2.1, hheap, hheap, if_pos rfl]
    by_cases hx : x = e.2
    · rw [if_pos hx, if_pos hx, hx]
    · rw [if_neg hx, if_neg hx, if_neg hx]
  · show (if r.2 = true then s.deleted ++ [e.2] else s.deleted) = _
    rw [hd.2.2, hheap, if_pos rfl]
    by_cases h0 : counterPred (s.world.heap e.2)._refCount = 0
    · rw [if_pos h0, if_pos (decide_eq_true h0)]
    · rw [if_neg h0, if_neg (by rw [decide_eq_false h0]; exact Bool.false_ne_true)]
      exact (List.append_nil _).symm

/-- The loop of the sweep over a list of entries whose wrappers are live and pairwise
different: no fault, the process-wide state is untouched throughout, every wrapper on the
list gets its flag and loses one reference, and the deleted ones are those whose count
reached zero. -/
theorem sweep_fold_spec (se : ScriptEngine) (l : List (Ptr × Nat)) (s : SweepState)
    (hlive : ∀ e ∈ l, e.2 ∉ s.deleted) (hone : (l.map Prod.snd).Nodup) :
    ∃ s1, l.foldl (sweepStep se) (some s) = some s1 ∧
      s1.world.rt = s.world.rt ∧
      s1.seen = s.seen ++ List.replicate l.length s.world.rt.nativePtrToObjectMap ∧
      (∀ x, s1.world.heap x =
        if x ∈ l.map Prod.snd then
          { s.world.heap x with
            _isCleanup := true
            _refCount := counterPred (s.world.heap x)._refCount }
        else s.world.heap x) ∧
      s1.deleted = s.deleted ++ (l.map Prod.snd).filter (fun x =>
        decide (counterPred (s.world.heap x)._refCount = 0)) := by
  induction l generalizing s with
  | nil => exact ⟨s, rfl, rfl, by simp, by simp, by simp⟩
  | cons e rest ih =>
    have hone1 : (e.2 :: rest.map Prod.snd).Nodup := hone
    have hnd := List.nodup_cons.1 hone1
    obtain ⟨s1, hs1, hrt1, hseen1, hheap1, hdel1⟩ :=
      sweepStep_spec se s e (hlive e (List.mem_cons_self _ _))
    have hlive1 : ∀ e1 ∈ rest, e1.2 ∉ s1.deleted := by
      intro e1 he1 hmem
      rw [hdel1] at hmem
      rcases List.mem_append.1 hmem with hm | hm
      · exact hlive e1 (List.mem_cons_of_mem _ he1) hm
      · split_ifs at hm
        · simp only [List.mem_singleton] at hm
          exact hnd.1 (hm ▸ List.mem_map_of_mem Prod.snd he1)
        · simp at hm
    obtain ⟨s2, hs2, hrt2, hseen2, hheap2, hdel2⟩ := ih s1 hlive1 hnd.2
    have hsame : ∀ x ∈ rest.map Prod.snd, s1.world.heap x = s.world.heap x := by
      intro x hx
      rw [hheap1 x, if_neg]
      intro hxe
      exact hnd.1 (hxe ▸ hx)
    refine ⟨s2, ?_, ?_, ?_, ?_, ?_⟩
    · simp only [List.foldl_cons]
      rw [hs1]; exact hs2
    · rw [hrt2, hrt1]
    · rw [hseen2, hseen1, hrt1]
      simp [List.replicate_succ]
    · intro x
      rw [hheap2 x]
      by_cases hx : x ∈ rest.map Prod.snd
      · have hmem : x ∈ (e :: rest).map Prod.snd := by
          simp only [List.map_cons, List.mem_cons]; exact Or.inr hx
        rw [if_pos hx, if_pos hmem, hsame x hx]
      · rw [if_neg hx, hheap1 x]
        by_cases hxe : x = e.2
        · have hmem : x ∈ (e :: rest).map Prod.snd := by
            simp only [List.map_cons, List.mem_cons]; exact Or.inl hxe
          rw [if_pos hxe, if_pos hmem]
        · have hmem : x ∉ (e :: rest).map Prod.snd := by
            simp only [List.map_cons, List.mem_cons, not_or]; exact ⟨hxe, hx⟩
          rw [if_neg hxe, if_neg hmem]
    · rw [hdel2, hdel1]
      have hfilter : (rest.map Prod.snd).filter (fun x =>
            decide (counterPred (s1.world.heap x)._refCount = 0))
          = (rest.map Prod.snd).filter (fun x =>
            decide (counterPred (s.world.heap x)._refCount = 0)) := by
        apply List.filter_congr
        intro x hx
        rw [hsame x hx]
      rw [hfilter]
      simp only [List.map_cons, List.filter_cons, decide_eq_true_eq]
      split_ifs <;> simp

/-- C8 as the code has it: when every registry entry refers to a wrapper that has not been
deleted and no wrapper is registered under two keys, then, whatever the reference counts,
root counts and private data of the wrappers and whatever the engine phase, the
after-cleanup hook runs through without a fault. It sets each wrapper's cleanup flag
before `decRef`, so that a count reaching zero runs the destructor's `_cleanup` as a
no-op: the registry seen after each turn of the loop is the registry at the start, and
the process-wide state is untouched. Every swept wrapper ends with its flag set and one
reference less, the wrappers deleted are exactly those whose count reached zero, and
afterwards both registries are empty. -/
theorem sweep_registry_stable (w : World) (deleted : List Nat) (se : ScriptEngine)
    (hlive : ∀ e ∈ w.rt.nativePtrToObjectMap, e.2 ∉ deleted)
    (hone : (w.rt.nativePtrToObjectMap.map Prod.snd).Nodup) :
    ∃ s, afterCleanupHook w deleted se = some s ∧
      s.seen = List.replicate w.rt.nativePtrToObjectMap.length w.rt.nativePtrToObjectMap ∧
      (∀ m ∈ s.seen, m = w.rt.nativePtrToObjectMap) ∧
      s.world.rt = { w.rt with nativePtrToObjectMap := [],
                               nonRefNativePtrCreatedByCtorMap := [] } ∧
      s.world.rt.calls = w.rt.calls ∧
      (∀ x, s.world.heap x =
        if x ∈ w.rt.nativePtrToObjectMap.map Prod.snd then
          { w.heap x with
            _isCleanup := true
            _refCount := counterPred (w.heap x)._refCount }
        else w.heap x) ∧
      s.deleted = deleted ++ (w.rt.nativePtrToObjectMap.map Prod.snd).filter (fun x =>
        decide (counterPred (w.heap x)._refCount = 0)) ∧
      s.world.rt.nativePtrToObjectMap = [] ∧
      s.world.rt.nonRefNativePtrCreatedByCtorMap = [] := by
  obtain ⟨s1, hs1, hrt1, hseen1, hheap1, hdel1⟩ :=
    sweep_fold_spec se w.rt.nativePtrToObjectMap { world := w, deleted := deleted, seen := [] }
      hlive hone
  have hseen : s1.seen =
      List.replicate w.rt.nativePtrToObjectMap.length w.rt.nativePtrToObjectMap := by
    rw [hseen1]; exact List.nil_append _
  have hhook : afterCleanupHook w deleted se = some
      { s1 with world := { s1.world with rt := { s1.world.rt with
          nativePtrToObjectMap := [], nonRefNativePtrCreatedByCtorMap := [] } } } := by
    unfold afterCleanupHook
    rw [hs1]
  refine ⟨_, hhook, hseen, ?_, ?_, ?_, hheap1, hdel1, rfl, rfl⟩
  · intro m hm
    have hm1 : m ∈ s1.seen := hm
    rw [hseen] at hm1
    exact List.eq_of_mem_replicate hm1
  · show ({ s1.world.rt with nativePtrToObjectMap := [],
                              nonRefNativePtrCreatedByCtorMap := [] } : Runtime) = _
    rw [hrt1]
  · show s1.world.rt.calls = w.rt.calls
    rw [hrt1]

/-- Witness for `sweep_registry_stable`: two wrappers, each registered once; each holds
its last reference and is deleted by the sweep. -/
theorem sweep_registry_stable_witness :
    ∃ s, afterCleanupHook
        { World.fresh (fun x => x + 1) with
          rt := { Runtime.empty with nativePtrToObjectMap := [(5, 1), (6, 2)] } }
        [] ScriptEngine.normal = some s ∧
      s.world.rt.nativePtrToObjectMap = [] :=
  match sweep_registry_stable
      { World.fresh (fun x => x + 1) with
        rt := { Runtime.empty with nativePtrToObjectMap := [(5, 1), (6, 2)] } }
      [] ScriptEngine.normal (by decide) (by decide) with
  | ⟨s, h, _, _, _, _, _, _, h1, _⟩ => ⟨s, h, h1⟩

/-- C8 as stated fails: `setPrivateData(nullptr)` and then `setPrivateData(7)` on one
wrapper pass both assertions and register it under two keys. With its single reference,
the first turn of the sweep deletes the wrapper and the second turn reaches it again
through the other entry: a write to freed memory. -/
theorem sweep_twice_registered_faults :
    ((World.fresh (fun x => x + 1)).run
        [RegistryOp.setPrivateData 1 0, RegistryOp.setPrivateData 1 7]).map
      (fun w => (w.rt.nativePtrToObjectMap, (w.heap 1)._refCount,
        (afterCleanupHook w [] ScriptEngine.normal).isSome))
      = some ([(0, 1), (7, 1)], 1, false) := by
  decide

/-- Why the flag is set first: on a registered wrapper whose flag is not set, a `decRef`
that reaches zero runs `_cleanup` in full, which erases the wrapper's entry from the
registry the loop is walking. -/
theorem decRef_unflagged_erases :
    ((World.fresh (fun x => x + 1)).run [RegistryOp.setPrivateData 1 5]).map
      (fun w => (w.rt.nativePtrToObjectMap,
        (w.decRef 1 ScriptEngine.normal).1.rt.nativePtrToObjectMap))
      = some ([(5, 1)], []) := by
  decide

/-- The wrapper after `unroot`, whatever the engine phase. -/
theorem unroot_fst (o : Object) (rt : Runtime) (se : ScriptEngine) :
    (o.unroot rt se).1 = if o._rootCount > 0 then { o with _rootCount := o._rootCount - 1 } else o := by
  unfold Object.unroot
  by_cases h0 : o._rootCount > 0
  · simp only [h0, if_true]
    split_ifs <;> rfl
  · simp only [h0, if_false]

/-- The first loop of `call` keeps `RootedBy`. -/
theorem rootArgs_rootedBy (args : List Value) (w0 w : World) (acc : List Nat)
    (h : RootedBy w0 w acc) : RootedBy w0 (w.rootArgs args acc).1 (w.rootArgs args acc).2 := by
  induction args generalizing w acc with
  | nil => exact h
  | cons arg rest ih =>
    cases arg with
    | Object o =>
      simp only [World.rootArgs]
      by_cases hr : (w.heap o).isRooted = true
      · simp only [hr, Bool.not_true, Bool.false_eq_true, if_false]
        exact ih w acc h
      · simp only [hr, Bool.not_eq_true, Bool.not_false, if_true]
        apply ih
        have hrc : (w.heap o)._rootCount = 0 := by
          simp only [Object.isRooted, decide_eq_true_eq] at hr
          omega
        have hnot : o ∉ acc := by
          intro hmem
          have := h.2.2 o
          rw [if_pos hmem] at this
          rw [this] at hrc
          simp at hrc
        have h0 : (w0.heap o)._rootCount = 0 := by
          have := h.2.2 o
          rw [if_neg hnot] at this
          rw [← this]; exact hrc
        refine ⟨?_, ?_, ?_⟩
        · exact List.Nodup.append h.1 (List.nodup_singleton _)
            (by intro x hx hx1; simp only [List.mem_singleton] at hx1; subst hx1; exact hnot hx)
        · intro x hx
          rcases List.mem_append.1 hx with hx | hx
          · exact h.2.1 x hx
          · simp only [List.mem_singleton] at hx; subst hx; exact h0
        · intro x
          simp only [World.root, World.set, Object.root]
          by_cases hxo : x = o
          · subst hxo
            have := h.2.2 x
            rw [if_neg hnot] at this
            simp [this, h0, counterModulus]
          · have := h.2.2 x
            simp only [hxo, if_false, List.mem_append, List.mem_singleton, or_false]
            exact this
    | Undefined => simpa only [World.rootArgs] using ih w acc h
    | Null => simpa only [World.rootArgs] using ih w acc h
    | Number v => simpa only [World.rootArgs] using ih w acc h
    | Boolean b => simpa only [World.rootArgs] using ih w acc h
    | String str => simpa only [World.rootArgs] using ih w acc h

/-- The second loop of `call` gives back the starting heap. -/
theorem unrootAll_heap (se : ScriptEngine) (acc : List Nat) (w0 w : World)
    (h : RootedBy w0 w acc) : (w.unrootAll se acc).heap = w0.heap := by
  induction acc generalizing w with
  | nil =>
    funext x
    have := h.2.2 x
    simpa [World.unrootAll] using this
  | cons o rest ih =>
    simp only [World.unrootAll]
    apply ih
    have hnd := List.nodup_cons.1 h.1
    refine ⟨hnd.2, fun x hx => h.2.1 x (List.mem_cons_of_mem _ hx), ?_⟩
    intro x
    simp only [World.unroot, World.set]
    by_cases hxo : x = o
    · subst hxo
      have hw := h.2.2 x
      rw [if_pos (List.mem_cons_self _ _)] at hw
      have h0 := h.2.1 x (List.mem_cons_self _ _)
      rw [if_pos rfl, if_neg hnd.1, unroot_fst, hw]
      simp only [gt_iff_lt, Nat.lt_one_iff, Nat.pos_of_ne_zero, if_true, Nat.sub_self]
      rcases hx0 : w0.heap x with ⟨a, b, c, d, e, f, g⟩
      rw [hx0] at h0
      simp only at h0
      simp [h0]
    · have hw := h.2.2 x
      simp only [hxo, if_false, List.mem_cons, false_or] at hw ⊢
      exact hw

/-- When the receiver is a function and a context value is at hand, `call` returns, its
flag tells whether the host reported `JsNoError`, and the heap is the one before. -/
theorem call_returns (w : World) (host : Host) (se : ScriptEngine) (this : Nat)
    (args : List Value) (thisObject : Nat) (rval : Option Value)
    (hf : (w.heap this).isFunction host = some true)
    (hu : thisObject ≠ 0 ∨ host.JsGetUndefinedValue.1 = JsNoError) :
    ∃ r, w.call host se this args thisObject rval = some r ∧
      r.2.1 = decide ((host.JsCallFunction (w.heap this)._obj
        ((if thisObject ≠ 0 then (w.heap thisObject)._obj else host.JsGetUndefinedValue.2)
          :: args.map host.seToJsValue)).1 = JsNoError) ∧
      r.1.heap = w.heap ∧ (r.2.1 = false → r.1.rt.pendingException = false) := by
  have hinit : RootedBy w w [] := ⟨List.nodup_nil, by simp, by simp⟩
  have hroot := rootArgs_rootedBy args w w [] hinit
  have hun : ∀ rt1 : Runtime,
      (World.unrootAll { (w.rootArgs args []).1 with rt := rt1 } se (w.rootArgs args []).2).heap
        = w.heap := by
    intro rt1
    apply unrootAll_heap
    exact ⟨hroot.1, hroot.2.1, hroot.2.2⟩
  unfold World.call
  rw [hf]
  simp only
  by_cases ht : thisObject ≠ 0
  · simp only [ht, if_true, ne_eq, not_false_eq_true]
    cases rval <;> simp only [] <;> split_ifs <;>
      exact ⟨_, rfl, by simp [*], hun _, by simp [Runtime.clearException]⟩
  · have hu1 : host.JsGetUndefinedValue.1 = JsNoError := by
      rcases hu with hu | hu
      · exact absurd hu ht
      · exact hu
    simp only [ht, if_false, _CHECK, hu1, if_true]
    cases rval <;> simp only [] <;> split_ifs <;>
      exact ⟨_, rfl, by simp [*], hun _, by simp [Runtime.clearException]⟩

/-- C6: temporary rooting in `Object::call` is fully reverted. For every world, host,
engine phase, argument list (any values, any number of object arguments, rooted or not,
repeated or not), receiver and result slot, when the callee is a function (the asserted
precondition) and a context value is at hand, `call` returns, with its flag telling
success from a thrown exception, and in both cases every wrapper is as it was before the
call; in particular every argument's root count is its pre-call value. The host function
is an answer of the host and does not touch the wrappers. -/
theorem call_restores_rootCounts (w : World) (host : Host) (se : ScriptEngine) (this : Nat)
    (args : List Value) (thisObject : Nat) (rval : Option Value)
    (hf : (w.heap this).isFunction host = some true)
    (hu : thisObject ≠ 0 ∨ host.JsGetUndefinedValue.1 = JsNoError) :
    ∃ r, w.call host se this args thisObject rval = some r ∧
      r.2.1 = decide ((host.JsCallFunction (w.heap this)._obj
        ((if thisObject ≠ 0 then (w.heap thisObject)._obj else host.JsGetUndefinedValue.2)
          :: args.map host.seToJsValue)).1 = JsNoError) ∧
      r.1.heap = w.heap ∧
      (∀ o, Value.Object o ∈ args → (r.1.heap o)._rootCount = (w.heap o)._rootCount) := by
  obtain ⟨r, hr, hflag, hh, _⟩ := call_returns w host se this args thisObject rval hf hu
  exact ⟨r, hr, hflag, hh, fun o _ => by rw [hh]⟩

/-- Witness for `call_restores_rootCounts`: the function wrapper 3 called with wrapper 4
passed twice and a number, while the engine is collecting. -/
theorem call_restores_rootCounts_witness :
    ∃ r, (World.fresh (fun x => x * 10)).call (Host.sample true true (-1)) ⟨false, true⟩ 3
        [Value.Object 4, Value.Number 7, Value.Object 4] 0 none = some r ∧
      r.1.heap = (World.fresh (fun x => x * 10)).heap :=
  match call_restores_rootCounts (World.fresh (fun x => x * 10)) (Host.sample true true (-1))
      ⟨false, true⟩ 3 [Value.Object 4, Value.Number 7, Value.Object 4] 0 none
      (by decide) (Or.inr (by decide)) with
  | ⟨r, h1, _, h2, _⟩ => ⟨r, h1, h2⟩

/-- The loop of `getAllKeys` when every index conversion and every element read in its
range succeeds: it appends the names of the range, in order. -/
theorem getAllKeysLoop_ok (host : Host) (keys : JsValueRef) (n index : Nat)
    (allKeys : List String)
    (h : ∀ j, index ≤ j → j < index + n →
      (host.JsIntToNumber (toInt32 j)).1 = JsNoError ∧
      (host.JsGetIndexedProperty keys (host.JsIntToNumber (toInt32 j)).2).1 = JsNoError) :
    getAllKeysLoop host keys index (keyAfter host keys index) allKeys n =
      (true, allKeys ++ (List.range' index n).map (nameAt host keys)) := by
  induction n generalizing index allKeys with
  | zero => simp [getAllKeysLoop]
  | succ n ih =>
    have h0 := h index (Nat.le_refl _) (by omega)
    have hrest := ih (index + 1)
      (allKeys ++ [host.jsStringToStdString (elementAt host keys index) (keyAfter host keys index)])
      (fun j hj1 hj2 => h j (by omega) (by omega))
    simp only [getAllKeysLoop, h0.1, h0.2, ne_eq, not_true_eq_false, if_false, if_true]
    simp only [keyAfter, elementAt] at hrest
    rw [hrest]
    simp [List.range'_succ, nameAt, keyAfter, elementAt]

/-- The loop of `getAllKeys` when the index conversion first fails `k` turns in: it
returns false, with the names of the `k` indices before already appended. -/
theorem getAllKeysLoop_fail (host : Host) (keys : JsValueRef) (n k index : Nat)
    (allKeys : List String) (hk : k < n)
    (h : ∀ j, index ≤ j → j < index + k →
      (host.JsIntToNumber (toInt32 j)).1 = JsNoError ∧
      (host.JsGetIndexedProperty keys (host.JsIntToNumber (toInt32 j)).2).1 = JsNoError)
    (hf : (host.JsIntToNumber (toInt32 (index + k))).1 ≠ JsNoError) :
    getAllKeysLoop host keys index (keyAfter host keys index) allKeys n =
      (false, allKeys ++ (List.range' index k).map (nameAt host keys)) := by
  induction n generalizing index allKeys k with
  | zero => omega
  | succ n ih =>
    cases k with
    | zero =>
      simp only [Nat.add_zero] at hf
      simp [getAllKeysLoop, hf]
    | succ k =>
      have h0 := h index (Nat.le_refl _) (by omega)
      have hrest := ih k (index + 1)
        (allKeys ++ [host.jsStringToStdString (elementAt host keys index) (keyAfter host keys index)])
        (by omega) (fun j hj1 hj2 => h j (by omega) (by omega))
        (by rw [show index + 1 + k = index + (k + 1) by omega]; exact hf)
      simp only [getAllKeysLoop, h0.1, h0.2, ne_eq, not_true_eq_false, if_false, if_true]
      simp only [keyAfter, elementAt] at hrest
      rw [hrest]
      simp [List.range'_succ, nameAt, keyAfter, elementAt]

/-- C10 as the code has it. `getAllKeys` returns false with the caller's sequence as it
was when `JsGetOwnPropertyNames` or one of the three calls reading the names array's
length reports an error. When these succeed and the index conversion first fails at index
`k`, the reads before it having succeeded, it returns false with the names at indices
`0..k-1` already appended. When no host call reports an error it returns true having
appended the names at indices `0..len-1` in that order. -/
theorem getAllKeys_outcomes (o : Object) (host : Host) (allKeys : List String) :
    ((host.JsGetOwnPropertyNames o._obj).1 ≠ JsNoError →
      o.getAllKeys host allKeys = some (false, allKeys)) ∧
    (∀ keys, host.JsGetOwnPropertyNames o._obj = (JsNoError, keys) →
      isArrayOfObject host keys = true →
      ((host.JsCreatePropertyId "length").1 ≠ JsNoError ∨
       (host.JsGetProperty keys (host.JsCreatePropertyId "length").2).1 ≠ JsNoError ∨
       (host.JsNumberToInt (host.JsGetProperty keys (host.JsCreatePropertyId "length").2).2).1
          ≠ JsNoError) →
      o.getAllKeys host allKeys = some (false, allKeys)) ∧
    (∀ keys pid jsLen intVal, host.JsGetOwnPropertyNames o._obj = (JsNoError, keys) →
      isArrayOfObject host keys = true →
      host.JsCreatePropertyId "length" = (JsNoError, pid) →
      host.JsGetProperty keys pid = (JsNoError, jsLen) →
      host.JsNumberToInt jsLen = (JsNoError, intVal) →
      (∀ k, k < toUInt32 intVal →
        (∀ j, j < k → (host.JsIntToNumber (toInt32 j)).1 = JsNoError ∧
          (host.JsGetIndexedProperty keys (host.JsIntToNumber (toInt32 j)).2).1 = JsNoError) →
        (host.JsIntToNumber (toInt32 k)).1 ≠ JsNoError →
        o.getAllKeys host allKeys =
          some (false, allKeys ++ (List.range k).map (nameAt host keys))) ∧
      ((∀ j, j < toUInt32 intVal → (host.JsIntToNumber (toInt32 j)).1 = JsNoError ∧
          (host.JsGetIndexedProperty keys (host.JsIntToNumber (toInt32 j)).2).1 = JsNoError) →
        o.getAllKeys host allKeys =
          some (true, allKeys ++ (List.range (toUInt32 intVal)).map (nameAt host keys)))) := by
  refine ⟨?_, ?_, ?_⟩
  · intro h
    simp [Object.getAllKeys, h]
  · intro keys hk ha hl
    have hnot : (!isArrayOfObject host keys) = false := by simp [ha]
    simp only [Object.getAllKeys, hk, ne_eq, not_true_eq_false, if_false, getArrayLengthOfObject,
      hnot, Bool.false_eq_true]
    rcases hl with hl | hl | hl
    · simp [hl]
    · by_cases h1 : (host.JsCreatePropertyId "length").1 = JsNoError
      · simp [h1, hl]
      · simp [h1]
    · by_cases h1 : (host.JsCreatePropertyId "length").1 = JsNoError
      · by_cases h2 : (host.JsGetProperty keys (host.JsCreatePropertyId "length").2).1 = JsNoError
        · simp [h1, h2, hl]
        · simp [h1, h2]
      · simp [h1]
  · intro keys pid jsLen intVal hk ha hp hl hi
    have hnot : (!isArrayOfObject host keys) = false := by simp [ha]
    have hlen : getArrayLengthOfObject host keys 0 = some (true, toUInt32 intVal) := by
      simp [getArrayLengthOfObject, hnot, hp, hl, hi]
    have hget : o.getAllKeys host allKeys =
        some (getAllKeysLoop host keys 0 (keyAfter host keys 0) allKeys (toUInt32 intVal)) := by
      simp [Object.getAllKeys, hk, hlen, keyAfter]
    refine ⟨?_, ?_⟩
    · intro k hklt hbefore hfail
      rw [hget, getAllKeysLoop_fail host keys (toUInt32 intVal) k 0 allKeys hklt
        (fun j _ hj => hbefore j (by omega)) (by simpa using hfail), List.range_eq_range']
    · intro hall
      rw [hget, getAllKeysLoop_ok host keys (toUInt32 intVal) 0 allKeys
        (fun j _ hj => hall j (by omega)), List.range_eq_range']

/-- C10 as stated fails: on a names array of length 2 whose index 1 cannot be made a
number, `getAllKeys` returns false after it has appended the name at index 0. -/
theorem getAllKeys_appends_before_failing :
    ({ Object.new with _obj := 7 } : Object).getAllKeys (Host.sample true true 1) ["z"]
      = some (false, ["z", "a"]) := by
  decide

/-- The element reads of `getAllKeys` are not checked: on a host whose every indexed read
reports an error, `getAllKeys` still returns true, having appended one (stale) string
for each index. -/
theorem getAllKeys_ignores_read_error :
    ({ Object.new with _obj := 7 } : Object).getAllKeys
        { Host.sample true true (-1) with JsGetIndexedProperty := fun _ _ => (1, 0) } ["z"]
      = some (true, ["z", "", ""]) := by
  decide

/-- When `call` returns, its asserted preconditions held. -/
theorem call_some_pre (w : World) (host : Host) (se : ScriptEngine) (this : Nat)
    (args : List Value) (thisObject : Nat) (rval : Option Value)
    (r : World × Bool × Option Value)
    (h : w.call host se this args thisObject rval = some r) :
    (w.heap this).isFunction host = some true ∧
    (thisObject ≠ 0 ∨ host.JsGetUndefinedValue.1 = JsNoError) := by
  unfold World.call at h
  cases hf : (w.heap this).isFunction host with
  | none => rw [hf] at h; simp at h
  | some b =>
    cases b with
    | false => rw [hf] at h; simp at h
    | true =>
      refine ⟨rfl, ?_⟩
      by_cases ht : thisObject ≠ 0
      · exact Or.inl ht
      · right
        by_contra hu
        rw [hf] at h
        simp [ht, _CHECK, hu] at h

/-- What a returned `createJSONObject` went through: both lookups found an object, the
call of `parse` returned, and the pointer is null exactly when that call reported
failure. -/
theorem createJSONObject_inv (w : World) (host : Host) (se : ScriptEngine) (jsonStr : String)
    (res : Option Object) (w1 : World)
    (h : w.createJSONObject host se jsonStr = some (res, w1)) :
    ∃ json parse flag ret,
      (w.heap host.globalObject).getProperty host "JSON" Value.Undefined
        = some (true, Value.Object json) ∧
      (w.heap json).getProperty host "parse" Value.Undefined = some (true, Value.Object parse) ∧
      w.call host se parse [Value.String jsonStr] json (some Value.Undefined)
        = some (w1, flag, ret) ∧
      (flag = false → res = none) ∧ (flag = true → res ≠ none) := by
  have hto : ∀ o, (Value.Object o).toObject = some o := fun _ => rfl
  unfold World.createJSONObject at h
  simp only at h
  cases hJ : (w.heap host.globalObject).getProperty host "JSON" Value.Undefined with
  | none => rw [hJ] at h; simp at h
  | some r1 =>
    rcases r1 with ⟨b1, v1⟩
    rw [hJ] at h
    cases b1 with
    | false => simp at h
    | true =>
      cases v1 with
      | Object json =>
        simp only [hto] at h
        cases hP : (w.heap json).getProperty host "parse" Value.Undefined with
        | none => rw [hP] at h; simp at h
        | some r2 =>
          rcases r2 with ⟨b2, v2⟩
          rw [hP] at h
          cases b2 with
          | false => simp at h
          | true =>
            cases v2 with
            | Object parse =>
              simp only [hto] at h
              cases hc : w.call host se parse [Value.String jsonStr] json
                  (some Value.Undefined) with
              | none => rw [hc] at h; simp at h
              | some r3 =>
                rcases r3 with ⟨w2, flag, ret⟩
                rw [hc] at h
                cases flag with
                | false =>
                  simp only [Option.some.injEq, Prod.mk.injEq] at h
                  refine ⟨json, parse, false, ret, rfl, hP, ?_, ?_, ?_⟩
                  · rw [← h.2]; exact hc
                  · intro _; exact h.1.symm
                  · intro hx; exact absurd hx (by decide)
                | true =>
                  simp only at h
                  cases hb : ret.bind Value.toObject with
                  | none => rw [hb] at h; simp at h
                  | some retObj =>
                    rw [hb] at h
                    simp only [Option.some.injEq, Prod.mk.injEq] at h
                    refine ⟨json, parse, true, ret, rfl, hP, ?_, ?_, ?_⟩
                    · rw [← h.2]; exact hc
                    · intro hx; exact absurd hx (by decide)
                    · intro _
                      rw [← h.1]
                      simp [Object._createJSObject, Object.init]
            | Undefined => simp [Value.toObject] at h
            | Null => simp [Value.toObject] at h
            | Number v => simp [Value.toObject] at h
            | Boolean b => simp [Value.toObject] at h
            | String str => simp [Value.toObject] at h
      | Undefined => simp [Value.toObject] at h
      | Null => simp [Value.toObject] at h
      | Number v => simp [Value.toObject] at h
      | Boolean b => simp [Value.toObject] at h
      | String str => simp [Value.toObject] at h

/-- C9 as the code has it. `createJSONObject` does not return when the global object has
no `JSON` property or `JSON` has no `parse` property: the assertion on the lookup stops
it. When both lookups give wrappers, `parse` is a function and the host call throws, it
returns null with no exception pending. Whenever it returns null no exception is pending,
and it returns a non-null wrapper only when the host call of `parse` reported
`JsNoError`. -/
theorem createJSONObject_outcomes (w : World) (host : Host) (se : ScriptEngine)
    (jsonStr : String) :
    ((∃ d, (w.heap host.globalObject).getProperty host "JSON" Value.Undefined = some (false, d)) →
      w.createJSONObject host se jsonStr = none) ∧
    (∀ json, (w.heap host.globalObject).getProperty host "JSON" Value.Undefined
        = some (true, Value.Object json) →
      (∃ d, (w.heap json).getProperty host "parse" Value.Undefined = some (false, d)) →
      w.createJSONObject host se jsonStr = none) ∧
    (∀ json parse, (w.heap host.globalObject).getProperty host "JSON" Value.Undefined
        = some (true, Value.Object json) →
      (w.heap json).getProperty host "parse" Value.Undefined = some (true, Value.Object parse) →
      (w.heap parse).isFunction host = some true → json ≠ 0 →
      (host.JsCallFunction (w.heap parse)._obj
        [(w.heap json)._obj, host.seToJsValue (Value.String jsonStr)]).1 ≠ JsNoError →
      ∃ w1, w.createJSONObject host se jsonStr = some (none, w1) ∧
        w1.rt.pendingException = false) ∧
    (∀ w1, w.createJSONObject host se jsonStr = some (none, w1) →
      w1.rt.pendingException = false) ∧
    (∀ obj w1, w.createJSONObject host se jsonStr = some (some obj, w1) →
      ∃ json parse, (w.heap host.globalObject).getProperty host "JSON" Value.Undefined
          = some (true, Value.Object json) ∧
        (w.heap json).getProperty host "parse" Value.Undefined
          = some (true, Value.Object parse) ∧
        (host.JsCallFunction (w.heap parse)._obj
          ((if json ≠ 0 then (w.heap json)._obj else host.JsGetUndefinedValue.2)
            :: [host.seToJsValue (Value.String jsonStr)])).1 = JsNoError) := by
  refine ⟨?_, ?_, ?_, ?_, ?_⟩
  · rintro ⟨d, hd⟩
    simp [World.createJSONObject, hd]
  · rintro json hJ ⟨d, hd⟩
    simp [World.createJSONObject, hJ, hd, Value.toObject]
  · intro json parse hJ hP hf hj hthrow
    obtain ⟨r, hr, hflag, _, hpend⟩ := call_returns w host se parse [Value.String jsonStr]
      json (some Value.Undefined) hf (Or.inl hj)
    rcases r with ⟨w1, flag, ret⟩
    have hfalse : flag = false := by
      simp only [hj, ne_eq, not_false_eq_true, if_true, List.map_cons, List.map_nil] at hflag
      rw [hflag]
      simpa using hthrow
    subst hfalse
    refine ⟨w1, ?_, hpend rfl⟩
    simp [World.createJSONObject, hJ, hP, Value.toObject, hr]
  · intro w1 h
    obtain ⟨json, parse, flag, ret, _, _, hc, _, h2⟩ := createJSONObject_inv w host se jsonStr _ _ h
    have hpre := call_some_pre w host se parse _ json _ _ hc
    obtain ⟨r, hr, _, _, hpend⟩ := call_returns w host se parse [Value.String jsonStr]
      json (some Value.Undefined) hpre.1 hpre.2
    rw [hc] at hr
    simp only [Option.some.injEq] at hr
    subst hr
    cases flag with
    | false => exact hpend rfl
    | true => exact absurd rfl (h2 rfl)
  · intro obj w1 h
    obtain ⟨json, parse, flag, ret, hJ, hP, hc, h1, _⟩ := createJSONObject_inv w host se jsonStr _ _ h
    have hpre := call_some_pre w host se parse _ json _ _ hc
    obtain ⟨r, hr, hflag, _, _⟩ := call_returns w host se parse [Value.String jsonStr]
      json (some Value.Undefined) hpre.1 hpre.2
    rw [hc] at hr
    simp only [Option.some.injEq] at hr
    subst hr
    refine ⟨json, parse, hJ, hP, ?_⟩
    cases flag with
    | false => exact absurd (h1 rfl) (by simp)
    | true =>
      simp only [List.map_cons, List.map_nil] at hflag
      simpa using hflag.symm

/-- C9 as stated fails: on a host whose global object has no `JSON` property,
`createJSONObject` does not return null; it stops at `assert(ok)`. On the same host with
the property, and a `parse` that throws, it returns null with no exception pending. -/
theorem createJSONObject_without_JSON_asserts :
    ((World.fresh (fun x => x * 10)).createJSONObject (Host.sample false true (-1))
        ScriptEngine.normal "not json").isSome = false ∧
    ((World.fresh (fun x => x * 10)).createJSONObject (Host.sample true true (-1))
        ScriptEngine.normal "not json").map (fun r => (r.1, r.2.rt.pendingException))
      = some (none, false) := by
  decide

/-- Witness for `createJSONObject_outcomes`: both lookups succeed and `parse` throws. -/
theorem createJSONObject_outcomes_witness :
    ∃ w1, (World.fresh (fun x => x * 10)).createJSONObject (Host.sample true true (-1))
        ScriptEngine.normal "not json" = some (none, w1) ∧ w1.rt.pendingException = false :=
  (createJSONObject_outcomes (World.fresh (fun x => x * 10)) (Host.sample true true (-1))
    ScriptEngine.normal "not json").2.2.1 2 3 (by decide) (by decide) (by decide) (by decide)
    (by decide)

/-- Witness for `getAllKeys_outcomes`: every host call succeeds on an array of two names. -/
theorem getAllKeys_outcomes_witness :
    ({ Object.new with _obj := 7 } : Object).getAllKeys (Host.sample true true (-1)) ["z"]
      = some (true, ["z"] ++ (List.range (toUInt32 2)).map
          (nameAt (Host.sample true true (-1)) 50)) :=
  ((getAllKeys_outcomes { Object.new with _obj := 7 } (Host.sample true true (-1)) ["z"]).2.2
    50 6 60 2 (by decide) (by decide) (by decide) (by decide) (by decide)).2 (by decide)

end se
